import Mathlib

/-!
# pkg/specgen/generate/oci.go

A shallow embedding of the translator from a container specification
(`specgen.SpecGenerator`) to an OCI runtime specification, and the properties
of its resource-limit resolver, namespace classifier, mount plan, device plan
and finalizer.

The spec builder (`generate.Generator`) is a mutable object in the source; here
it is a value threaded through every step.  Besides the fields the translator
reads back, the builder value records the mount, masked-path and rlimit
operations that were invoked on it, in order (`calls`), so that statements
about which operations a step issues can be made.  The calls to functions
outside oci.go are recorded, with the error each returned, in the `steps` of a
run of `SpecGenToOCI`.
-/

namespace Specgen

/-! ## Data model -/

/-- An error returned by a collaborator (`error` in the source). -/
abbrev Error := String

/-- The declared resource limit `spec.POSIXRlimit`: kind, hard and soft value
(both `uint64`; no arithmetic is done on them). -/
structure POSIXRlimit where
  Typ : String
  Hard : Nat
  Soft : Nat
deriving DecidableEq

/-- The mount entry `spec.Mount`. -/
structure Mount where
  Destination : String
  Typ : String
  Source : String
  Options : List String
deriving DecidableEq

/-- A builder operation invoked by the translator, with its arguments. -/
inductive Call where
  | RemoveMount (dest : String)
  | AddMount (mnt : Mount)
  | AddLinuxMaskedPaths (path : String)
  | AddProcessRlimits (rType : String) (rHard rSoft : Nat)
deriving DecidableEq

/-- The spec builder `generate.Generator`, restricted to the parts of
`g.Config` that the translator touches.  `Rlimits = none` is the nil slice of
`g.Config.Process.Rlimits` and `Annotations = none` the nil map; a map is kept
as the list of its bindings, one per key; `Resources` and the device nodes are
not looked into by the translator.  `calls` is the record of the mount,
masked-path and rlimit operations, oldest first. -/
structure Generator where
  Mounts : List Mount := []
  MaskedPaths : List String := []
  Rlimits : Option (List POSIXRlimit) := none
  HostSpecific : Bool := false
  Cwd : String := ""
  Args : List String := []
  Terminal : Bool := false
  Env : List (String × String) := []
  Annotations : Option (List (String × String)) := none
  Resources : Option String := none
  Devices : List String := []
  NoNewPrivileges : Bool := false
  ApparmorProfile : String := ""
  calls : List Call := []
deriving DecidableEq

/-! ## Builder operations

These belong to the builder collaborator, which the translator only calls. -/

/-- Modelled from the spec: the builder operation `removeMount(path)`, whose
code is not part of the translator.  It drops the entries mounted at `dest`. -/
def Generator.RemoveMount (g : Generator) (dest : String) : Generator :=
  { g with
    Mounts := g.Mounts.filter (fun m => m.Destination != dest)
    calls := g.calls ++ [Call.RemoveMount dest] }

/-- Modelled from the spec: the builder operation `addMount(entry)`, whose code
is not part of the translator.  It appends the entry to the mount list. -/
def Generator.AddMount (g : Generator) (mnt : Mount) : Generator :=
  { g with
    Mounts := g.Mounts ++ [mnt]
    calls := g.calls ++ [Call.AddMount mnt] }

/-- Modelled from the spec: the builder operation `addLinuxMaskedPath(path)`,
whose code is not part of the translator.  It appends the path to the masked
paths. -/
def Generator.AddLinuxMaskedPaths (g : Generator) (path : String) : Generator :=
  { g with
    MaskedPaths := g.MaskedPaths ++ [path]
    calls := g.calls ++ [Call.AddLinuxMaskedPaths path] }

/-- Overwrite the values of the first entry of kind `rType`. -/
def setRlimit (rType : String) (rHard rSoft : Nat) : List POSIXRlimit → List POSIXRlimit
  | [] => []
  | r :: rs =>
    if r.Typ = rType then { Typ := rType, Hard := rHard, Soft := rSoft } :: rs
    else r :: setRlimit rType rHard rSoft rs

/-- Modelled from the spec: the builder operation
`addProcessRlimit(name, hard, soft)`, whose code is not part of the
translator.  An entry of the same kind already held by the builder gets the new
values, otherwise the entry is appended; a nil list becomes a one-entry list. -/
def Generator.AddProcessRlimits (g : Generator) (rType : String) (rHard rSoft : Nat) :
    Generator :=
  let old := g.Rlimits.getD []
  let new :=
    if old.any (fun r => r.Typ == rType) then setRlimit rType rHard rSoft old
    else old ++ [{ Typ := rType, Hard := rHard, Soft := rSoft }]
  { g with
    Rlimits := some new
    calls := g.calls ++ [Call.AddProcessRlimits rType rHard rSoft] }

/-- The assignment `m[key] = value` on a map kept as the list of its
bindings: the binding of `key` gets the new value, or is added. -/
def setKey (key value : String) : List (String × String) → List (String × String)
  | [] => [(key, value)]
  | kv :: rest =>
    if kv.1 = key then (key, value) :: rest else kv :: setKey key value rest

/-- The lookup `m[key]` on a map kept as the list of its bindings. -/
def getKey (key : String) : List (String × String) → Option String
  | [] => none
  | kv :: rest => if kv.1 = key then some kv.2 else getKey key rest

/-- Modelled from the spec: the builder operation `setProcessCwd`, whose code
is not part of the translator. -/
def Generator.SetProcessCwd (g : Generator) (cwd : String) : Generator :=
  { g with Cwd := cwd }

/-- Modelled from the spec: the builder operation `setProcessArgs`, whose code
is not part of the translator. -/
def Generator.SetProcessArgs (g : Generator) (args : List String) : Generator :=
  { g with Args := args }

/-- Modelled from the spec: the builder operation `setProcessTerminal`, whose
code is not part of the translator. -/
def Generator.SetProcessTerminal (g : Generator) (terminal : Bool) : Generator :=
  { g with Terminal := terminal }

/-- Modelled from the spec: the builder operation `setProcessNoNewPrivileges`,
whose code is not part of the translator. -/
def Generator.SetProcessNoNewPrivileges (g : Generator) (b : Bool) : Generator :=
  { g with NoNewPrivileges := b }

/-- Modelled from the spec: the builder operation `setProcessApparmorProfile`,
whose code is not part of the translator. -/
def Generator.SetProcessApparmorProfile (g : Generator) (profile : String) : Generator :=
  { g with ApparmorProfile := profile }

/-- Modelled from the spec: the builder operation `addProcessEnv(k,v)`, whose
code is not part of the translator.  The variable `name` gets the value. -/
def Generator.AddProcessEnv (g : Generator) (name value : String) : Generator :=
  { g with Env := setKey name value g.Env }

/-- Modelled from the spec: the builder operation `addAnnotation(k,v)`, whose
code is not part of the translator.  A nil map is created first. -/
def Generator.AddAnnotation (g : Generator) (key value : String) : Generator :=
  { g with Annotations := some (setKey key value (g.Annotations.getD [])) }

/-! ## Input specification -/

/-- Modelled from the spec: the namespace mode of `specgen.Namespace`, which is
declared outside oci.go.  The spec names the modes host, private,
container-shared (`FromContainer`) and path-based (`Path`); `Other` is a mode
for which none of `IsHost`, `IsContainer`, `IsPath`, `IsPrivate` holds (the
source tests the three non-host modes one by one under `!IsHost()`), such as a
mode left unset or a pod-shared one. -/
inductive NamespaceMode where
  | Host
  | Path
  | FromContainer
  | Private
  | Other
deriving DecidableEq

/-- The namespace setting `specgen.Namespace`, restricted to its mode. -/
structure Namespace where
  NSMode : NamespaceMode
deriving DecidableEq

/-- The method `IsHost`. -/
def Namespace.IsHost (n : Namespace) : Bool := n.NSMode == NamespaceMode.Host

/-- The method `IsPath`. -/
def Namespace.IsPath (n : Namespace) : Bool := n.NSMode == NamespaceMode.Path

/-- The method `IsContainer`. -/
def Namespace.IsContainer (n : Namespace) : Bool := n.NSMode == NamespaceMode.FromContainer

/-- The method `IsPrivate`. -/
def Namespace.IsPrivate (n : Namespace) : Bool := n.NSMode == NamespaceMode.Private

/-- One range of a declared ID map (`idtools.IDMap`, fields of type `int`,
taken as 64 bits wide). -/
structure IDMap where
  ContainerID : Int
  HostID : Int
  Size : Int
deriving DecidableEq

/-- The declared ID mappings (`storage.IDMappingOptions`), restricted to the
GID map. -/
structure IDMappingOptions where
  GIDMap : List IDMap := []
deriving DecidableEq

/-- One range of the process GID map read from `/proc/self/gid_map`
(`user.IDMap`, fields of type `int64`). -/
structure UserIDMap where
  ID : Int
  ParentID : Int
  Count : Int
deriving DecidableEq

/-- A declared device (`spec.LinuxDevice`), restricted to its host path. -/
structure LinuxDevice where
  Path : String
deriving DecidableEq

/-- The container specification `specgen.SpecGenerator`, restricted to the
fields read by `addRlimits` and `SpecGenToOCI`.  `Rlimits = none` is the nil
slice (limits unset), `some []` an explicit empty list; `IDMappings = none` is
the nil pointer.  The maps `Annotations` and `Env` are kept as the list of
their bindings, one per key, in the order in which the `range` loop visits
them; `ResourceLimits` is not looked into by the translator. -/
structure SpecGenerator where
  Rlimits : Option (List POSIXRlimit) := none
  UserNS : Namespace
  NetNS : Namespace
  IpcNS : Namespace
  PidNS : Namespace
  Privileged : Bool := false
  IDMappings : Option IDMappingOptions := none
  WorkDir : String := ""
  Command : List String := []
  Terminal : Bool := false
  Annotations : List (String × String) := []
  ResourceLimits : Option String := none
  Devices : List LinuxDevice := []
  NoNewPrivileges : Bool := false
  ApparmorProfile : String := ""
  Env : List (String × String) := []
  Mounts : List Mount := []
  Remove : Bool := false
  VolumesFrom : List String := []
deriving DecidableEq

/-- Two's-complement wrap-around of a 64-bit signed sum. -/
def wrapInt64 (x : Int) : Int := (x + 2 ^ 63) % 2 ^ 64 - 2 ^ 63

/-! ## addRlimits (oci.go, lines 15-49) -/

/-- The constant `kernelMax`. -/
def kernelMax : Nat := 1048576

/-- The state of the loop of `addRlimits`: the two flags and the builder. -/
structure RlimitLoop where
  nofileSet : Bool
  nprocSet : Bool
  g : Generator

/-- One iteration of the loop over `s.Rlimits` (lines 28-36).  `ToUpper` is
`strings.ToUpper`. -/
def rlimitIter (ToUpper : String → String) (st : RlimitLoop) (u : POSIXRlimit) : RlimitLoop :=
  let name := "RLIMIT_" ++ ToUpper u.Typ
  let st :=
    if name = "RLIMIT_NOFILE" then { st with nofileSet := true }
    else if name = "RLIMIT_NPROC" then { st with nprocSet := true }
    else st
  { st with g := st.g.AddProcessRlimits name u.Hard u.Soft }

/-- The function `addRlimits`.  `ToUpper` is `strings.ToUpper` and `isRootless`
the value of `rootless.IsRootless()`; the builder is passed in and the updated
builder is returned (`Except.ok`) where the source returns a nil error. -/
def addRlimits (ToUpper : String → String) (isRootless : Bool)
    (s : SpecGenerator) (g : Generator) : Except Error Generator :=
  match s.Rlimits with
  | none => Except.ok { g with Rlimits := none }
  | some rlimits =>
    let st := rlimits.foldl (rlimitIter ToUpper) { nofileSet := false, nprocSet := false, g := g }
    let g := st.g
    let g :=
      if !st.nofileSet && !isRootless then g.AddProcessRlimits "RLIMIT_NOFILE" kernelMax kernelMax
      else g
    let g :=
      if !st.nprocSet && !isRootless then g.AddProcessRlimits "RLIMIT_NPROC" kernelMax kernelMax
      else g
    Except.ok g

/-! ## GetAvailableGids (oci.go, lines 274-284) -/

/-- The function `GetAvailableGids`.  `parseIDMapFile` is the result of
`user.ParseIDMapFile("/proc/self/gid_map")`; the counts are summed in `int64`. -/
def GetAvailableGids (parseIDMapFile : Except Error (List UserIDMap)) : Except Error Int :=
  match parseIDMapFile with
  | Except.error err => Except.error err
  | Except.ok idMap => Except.ok (idMap.foldl (fun count r => wrapInt64 (count + r.Count)) 0)

/-! ## SpecGenToOCI, mount plan (oci.go, lines 52-174) -/

/-- The flag `inUserNS` (lines 53 and 66-77). -/
def inUserNS (isRootless : Bool) (s : SpecGenerator) : Bool :=
  let inUserNS := false
  let inUserNS := if isRootless then true else inUserNS
  if !s.UserNS.IsHost then
    let inUserNS := if s.UserNS.IsContainer || s.UserNS.IsPath then true else inUserNS
    let inUserNS := if s.UserNS.IsPrivate then true else inUserNS
    inUserNS
  else inUserNS

/-- The flag `canMountSys` (lines 64 and 78-80). -/
def canMountSys (isRootless : Bool) (s : SpecGenerator) : Bool :=
  let canMountSys := true
  if inUserNS isRootless s && s.NetNS.IsHost then false else canMountSys

/-- The variables that the `/sys` step leaves for the later steps. -/
structure SysPlan where
  cgroupPerm : String
  addCgroup : Bool
  g : Generator
deriving DecidableEq

/-- The `sysfs` entry of line 85. -/
def sysfsMnt : Mount :=
  { Destination := "/sys", Typ := "sysfs", Source := "sysfs",
    Options := ["rprivate", "nosuid", "noexec", "nodev", "rw"] }

/-- The bind entry of line 99, with permission `r`. -/
def sysBindMnt (r : String) : Mount :=
  { Destination := "/sys", Typ := "bind", Source := "/sys",
    Options := ["rprivate", "nosuid", "noexec", "nodev", r, "rbind"] }

/-- The `/sys` step (lines 55, 63 and 82-109). -/
def sysMount (isRootless : Bool) (s : SpecGenerator) (g : Generator) : SysPlan :=
  let cgroupPerm := "ro"
  let addCgroup := true
  let canMountSys := canMountSys isRootless s
  if s.Privileged && canMountSys then
    let cgroupPerm := "rw"
    let g := g.RemoveMount "/sys"
    let g := g.AddMount sysfsMnt
    { cgroupPerm := cgroupPerm, addCgroup := addCgroup, g := g }
  else if !canMountSys then
    let addCgroup := false
    let g := g.RemoveMount "/sys"
    let r := "ro"
    let r := if s.Privileged then "rw" else r
    let g := g.AddMount (sysBindMnt r)
    let g := if !s.Privileged && isRootless then g.AddLinuxMaskedPaths "/sys/kernel" else g
    { cgroupPerm := cgroupPerm, addCgroup := addCgroup, g := g }
  else
    { cgroupPerm := cgroupPerm, addCgroup := addCgroup, g := g }

/-- The search of lines 121-127: some declared range holds container GID 5.
The sum `r.ContainerID+r.Size` is an `int` sum. -/
def mappingFound (gidMap : List IDMap) : Bool :=
  gidMap.any (fun r => decide (r.ContainerID ≤ 5) && decide (5 < wrapInt64 (r.ContainerID + r.Size)))

/-- The flag `gid5Available` (lines 110-132).  An error of `GetAvailableGids`
is returned as it is. -/
def gid5Available (isRootless : Bool) (parseIDMapFile : Except Error (List UserIDMap))
    (s : SpecGenerator) : Except Error Bool :=
  let probed : Except Error Bool :=
    if isRootless then
      match GetAvailableGids parseIDMapFile with
      | Except.error err => Except.error err
      | Except.ok nGids => Except.ok (decide (nGids ≥ 5))
    else Except.ok true
  match probed with
  | Except.error err => Except.error err
  | Except.ok gid5Available =>
    match s.IDMappings with
    | none => Except.ok gid5Available
    | some m =>
      if gid5Available && decide (m.GIDMap.length > 0) then
        if !mappingFound m.GIDMap then Except.ok false else Except.ok gid5Available
      else Except.ok gid5Available

/-- The `devpts` entry of line 136. -/
def devPts : Mount :=
  { Destination := "/dev/pts", Typ := "devpts", Source := "devpts",
    Options := ["rprivate", "nosuid", "noexec", "newinstance", "ptmxmode=0666", "mode=0620"] }

/-- The `/dev/pts` step (lines 133-143). -/
def devPtsMount (gid5Available : Bool) (g : Generator) : Generator :=
  if !gid5Available then
    let g := g.RemoveMount "/dev/pts"
    g.AddMount devPts
  else g

/-- The bind entry of line 147. -/
def devMqueue : Mount :=
  { Destination := "/dev/mqueue", Typ := "bind", Source := "/dev/mqueue",
    Options := ["bind", "nosuid", "noexec", "nodev"] }

/-- The `/dev/mqueue` step (lines 145-154). -/
def mqueueMount (isRootless : Bool) (s : SpecGenerator) (g : Generator) : Generator :=
  if inUserNS isRootless s && s.IpcNS.IsHost then
    let g := g.RemoveMount "/dev/mqueue"
    g.AddMount devMqueue
  else g

/-- The constant `TypeBind`, declared outside oci.go. -/
def TypeBind : String := "bind"

/-- The bind entry of line 157. -/
def procMount : Mount :=
  { Destination := "/proc", Typ := TypeBind, Source := "/proc",
    Options := ["rbind", "nosuid", "noexec", "nodev"] }

/-- The `/proc` step (lines 155-164). -/
def procStep (isRootless : Bool) (s : SpecGenerator) (g : Generator) : Generator :=
  if inUserNS isRootless s && s.PidNS.IsHost then
    let g := g.RemoveMount "/proc"
    g.AddMount procMount
  else g

/-- The cgroup entry of line 167, with permission `cgroupPerm`. -/
def cgroupMnt (cgroupPerm : String) : Mount :=
  { Destination := "/sys/fs/cgroup", Typ := "cgroup", Source := "cgroup",
    Options := ["rprivate", "nosuid", "noexec", "nodev", "relatime", cgroupPerm] }

/-- The cgroup step (lines 166-174). -/
def cgroupMount (addCgroup : Bool) (cgroupPerm : String) (g : Generator) : Generator :=
  if addCgroup then g.AddMount (cgroupMnt cgroupPerm) else g

/-- The mount plan of `SpecGenToOCI`: lines 52-174, from the creation of the
builder to the cgroup mount.  `New` is the result of `generate.New("linux")`
and `parseIDMapFile` the result of reading `/proc/self/gid_map`, which is
looked at only under rootless execution.  An error is the `return nil, err` of
the source. -/
def mountPlan (isRootless : Bool) (New : Except Error Generator)
    (parseIDMapFile : Except Error (List UserIDMap)) (s : SpecGenerator) :
    Except Error Generator :=
  match New with
  | Except.error err => Except.error err
  | Except.ok g =>
    let g := g.RemoveMount "/dev/shm"
    let g := { g with HostSpecific := true }
    let sys := sysMount isRootless s g
    let g := sys.g
    match gid5Available isRootless parseIDMapFile s with
    | Except.error err => Except.error err
    | Except.ok gid5 =>
      let g := devPtsMount gid5 g
      let g := mqueueMount isRootless s g
      let g := procStep isRootless s g
      let g := cgroupMount sys.addCgroup sys.cgroupPerm g
      Except.ok g

/-! ## SpecGenToOCI, after the mount plan (oci.go, lines 175-272) -/

/-- The constant `libpod.InspectAnnotationAutoremove`, declared outside
oci.go. -/
def InspectAnnotationAutoremove : String := "io.podman.annotations.autoremove"

/-- The constant `libpod.InspectAnnotationVolumesFrom`, declared outside
oci.go. -/
def InspectAnnotationVolumesFrom : String := "io.podman.annotations.volumes-from"

/-- The constant `libpod.InspectAnnotationPrivileged`, declared outside
oci.go. -/
def InspectAnnotationPrivileged : String := "io.podman.annotations.privileged"

/-- The constant `libpod.InspectResponseTrue`, declared outside oci.go. -/
def InspectResponseTrue : String := "TRUE"

/-- The constant `libpod.InspectResponseFalse`, declared outside oci.go. -/
def InspectResponseFalse : String := "FALSE"

/-- The functions that `SpecGenToOCI` calls and that are not in oci.go, taken
as they are: `New` is the result of `generate.New("linux")`, `parseIDMapFile`
the result of reading `/proc/self/gid_map`, `ToUpper` is `strings.ToUpper`,
`processOptions` is the normalisation of one mount's option list inside
`InitFSMounts`.  A function that takes the builder returns the builder it
leaves; the runtime handle and the image are part of the function. -/
structure Collaborators where
  New : Except Error Generator
  parseIDMapFile : Except Error (List UserIDMap)
  ToUpper : String → String
  addPrivilegedDevices : Generator → Except Error Generator
  DevicesFromPath : Generator → String → Except Error Generator
  BlockAccessToKernelFilesystems : Bool → Bool → Generator → Generator
  specConfigureNamespaces : SpecGenerator → Generator → Except Error Generator
  securityConfigureGenerator : SpecGenerator → Generator → Except Error Generator
  processOptions : Mount → Except Error (List String)

/-- A call site of a function outside oci.go. -/
inductive Step where
  | New
  | GetAvailableGids
  | addPrivilegedDevices
  | DevicesFromPath (path : String)
  | BlockAccessToKernelFilesystems
  | addRlimits
  | specConfigureNamespaces
  | securityConfigureGenerator
  | SupercedeUserMounts
  | InitFSMounts
deriving DecidableEq

/-- One executed call: the call site and the error it returned (`none` is the
nil error, also for a call that returns no error value). -/
structure StepRecord where
  step : Step
  err : Option Error
deriving DecidableEq

/-- What a run of the translator, or of a part of it, leaves: the calls that
were executed, oldest first, and the returned pair, `Except.ok spec` for
`(spec, nil)` and `Except.error err` for `(nil, err)`. -/
structure Run where
  steps : List StepRecord
  result : Except Error Generator

/-- The error of a returned value, `none` for a nil error. -/
def errOf {α : Type} : Except Error α → Option Error
  | Except.error err => some err
  | Except.ok _ => none

/-- A single call whose error is checked: `if err != nil { return nil, err }`. -/
def call (step : Step) (r : Except Error Generator) : Run :=
  { steps := [{ step := step, err := errOf r }], result := r }

/-- Sequencing: the rest of the function runs only if the part before it did
not return. -/
def Run.andThen (r : Run) (rest : Generator → Run) : Run :=
  match r.result with
  | Except.error err => { steps := r.steps, result := Except.error err }
  | Except.ok g =>
    { steps := r.steps ++ (rest g).steps, result := (rest g).result }

/-- Lines 52-174 as a run: the creation of the builder and, under rootless
execution, the probe of the GID map are the calls of the mount plan. -/
def mountPlanRun (c : Collaborators) (isRootless : Bool) (s : SpecGenerator) : Run :=
  match c.New with
  | Except.error err =>
    { steps := [{ step := Step.New, err := some err }], result := Except.error err }
  | Except.ok g =>
    { steps :=
        { step := Step.New, err := none } ::
          (if isRootless then
            [{ step := Step.GetAvailableGids, err := errOf (GetAvailableGids c.parseIDMapFile) }]
           else [])
      result := mountPlan isRootless (Except.ok g) c.parseIDMapFile s }

/-- Lines 175-184: process parameters, declared annotations, the marker
variable and the resource-limit block. -/
def processSetup (s : SpecGenerator) (g : Generator) : Generator :=
  let g := g.SetProcessCwd s.WorkDir
  let g := g.SetProcessArgs s.Command
  let g := g.SetProcessTerminal s.Terminal
  let g := s.Annotations.foldl (fun g kv => g.AddAnnotation kv.1 kv.2) g
  let g := g.AddProcessEnv "container" "podman"
  { g with Resources := s.ResourceLimits }

/-- The loop of lines 195-199 over the declared devices. -/
def addDevices (c : Collaborators) : List LinuxDevice → Generator → Run
  | [], g => { steps := [], result := Except.ok g }
  | device :: rest, g =>
    match c.DevicesFromPath g device.Path with
    | Except.error err =>
      { steps := [{ step := Step.DevicesFromPath device.Path, err := some err }]
        result := Except.error err }
    | Except.ok g =>
      { steps := { step := Step.DevicesFromPath device.Path, err := none }
          :: (addDevices c rest g).steps
        result := (addDevices c rest g).result }

/-- The device plan (lines 186-200). -/
def devicePlan (c : Collaborators) (s : SpecGenerator) (g : Generator) : Run :=
  if s.Privileged then call Step.addPrivilegedDevices (c.addPrivilegedDevices g)
  else addDevices c s.Devices g

/-- Lines 202-217: security options, declared environment and rlimits. -/
def securityOpts (c : Collaborators) (isRootless : Bool) (s : SpecGenerator)
    (g : Generator) : Run :=
  let g := g.SetProcessNoNewPrivileges s.NoNewPrivileges
  let g := if !s.Privileged then g.SetProcessApparmorProfile s.ApparmorProfile else g
  let g := c.BlockAccessToKernelFilesystems s.Privileged s.PidNS.IsHost g
  let g := s.Env.foldl (fun g kv => g.AddProcessEnv kv.1 kv.2) g
  { steps := { step := Step.BlockAccessToKernelFilesystems, err := none }
      :: (call Step.addRlimits (addRlimits c.ToUpper isRootless s g)).steps
    result := addRlimits c.ToUpper isRootless s g }

/-- Put `mnt` at its destination: it takes the place of the entry mounted
there, or is added at the end. -/
def putMount (mnt : Mount) : List Mount → List Mount
  | [] => [mnt]
  | m :: ms =>
    if m.Destination = mnt.Destination then mnt :: ms else m :: putMount mnt ms

/-- Modelled from the spec: `SupercedeUserMounts(userMounts, builderMounts)`,
which is not in oci.go.  The merge by destination in which the last writer
wins: the builder mounts, then the declared mounts, are put one by one at their
destination, a later entry taking the place of an earlier one for the same
destination, so that one entry per destination is left. -/
def SupercedeUserMounts (mounts configMount : List Mount) : List Mount :=
  (configMount ++ mounts).foldl (fun acc mnt => putMount mnt acc) []

/-- Modelled from the spec: `InitFSMounts(mounts)`, which is not in oci.go.  It
normalises the option list of every mount, and fails with the error of the
first mount whose options are refused; nothing but the option lists changes. -/
def InitFSMounts (processOptions : Mount → Except Error (List String)) :
    List Mount → Except Error (List Mount)
  | [] => Except.ok []
  | m :: ms =>
    match processOptions m with
    | Except.error err => Except.error err
    | Except.ok opts =>
      match InitFSMounts processOptions ms with
      | Except.error err => Except.error err
      | Except.ok rest => Except.ok ({ m with Options := opts } :: rest)

/-- The annotations stamped by lines 236-261 onto the map `annotations`. -/
def stampAnnotations (s : SpecGenerator) (annotations : List (String × String)) :
    List (String × String) :=
  let annotations :=
    if s.Remove then setKey InspectAnnotationAutoremove InspectResponseTrue annotations
    else setKey InspectAnnotationAutoremove InspectResponseFalse annotations
  let annotations :=
    if s.VolumesFrom.length > 0 then
      setKey InspectAnnotationVolumesFrom (String.intercalate "," s.VolumesFrom) annotations
    else annotations
  if s.Privileged then setKey InspectAnnotationPrivileged InspectResponseTrue annotations
  else setKey InspectAnnotationPrivileged InspectResponseFalse annotations

/-- The finalizer (lines 229-271) on the specification `configSpec` held by
the builder: merge of the declared mounts, normalisation of the mount options,
annotations. -/
def finalize (c : Collaborators) (s : SpecGenerator) (configSpec : Generator) : Run :=
  let merged := SupercedeUserMounts s.Mounts configSpec.Mounts
  match InitFSMounts c.processOptions merged with
  | Except.error err =>
    { steps := [{ step := Step.SupercedeUserMounts, err := none },
                { step := Step.InitFSMounts, err := some err }]
      result := Except.error err }
  | Except.ok mounts =>
    let configSpec := { configSpec with Mounts := mounts }
    let annotations :=
      match configSpec.Annotations with
      | none => []
      | some annotations => annotations
    { steps := [{ step := Step.SupercedeUserMounts, err := none },
                { step := Step.InitFSMounts, err := none }]
      result := Except.ok
        { configSpec with Annotations := some (stampAnnotations s annotations) } }

/-- Lines 202-272, what follows the device plan: security options and
rlimits, namespaces, security settings, finalizer. -/
def afterDevices (c : Collaborators) (isRootless : Bool) (s : SpecGenerator)
    (g : Generator) : Run :=
  (securityOpts c isRootless s g).andThen fun g =>
  (call Step.specConfigureNamespaces (c.specConfigureNamespaces s g)).andThen fun g =>
  (call Step.securityConfigureGenerator (c.securityConfigureGenerator s g)).andThen fun g =>
  finalize c s g

/-- The function `SpecGenToOCI`.  `isRootless` is the value of
`rootless.IsRootless()`.  The returned specification is the `g.Config` of the
builder, which `configSpec` points to from line 223 on. -/
def SpecGenToOCI (c : Collaborators) (isRootless : Bool) (s : SpecGenerator) : Run :=
  (mountPlanRun c isRootless s).andThen fun g =>
  (devicePlan c s (processSetup s g)).andThen fun g =>
  afterDevices c isRootless s g

/-! ## Sample values -/

/-- The ASCII part of `strings.ToUpper`: letters a-z become A-Z, every other
character is kept. -/
def asciiToUpper (s : String) : String := String.mk (s.data.map Char.toUpper)

/-- The mounts of a freshly created builder. -/
def defaultMounts : List Mount :=
  [ { Destination := "/proc", Typ := "proc", Source := "proc", Options := [] },
    { Destination := "/dev", Typ := "tmpfs", Source := "tmpfs",
      Options := ["nosuid", "strictatime", "mode=755", "size=65536k"] },
    { Destination := "/dev/pts", Typ := "devpts", Source := "devpts",
      Options := ["nosuid", "noexec", "newinstance", "ptmxmode=0666", "mode=0620", "gid=5"] },
    { Destination := "/dev/shm", Typ := "tmpfs", Source := "shm",
      Options := ["nosuid", "noexec", "nodev", "mode=1777", "size=65536k"] },
    { Destination := "/dev/mqueue", Typ := "mqueue", Source := "mqueue",
      Options := ["nosuid", "noexec", "nodev"] },
    { Destination := "/sys", Typ := "sysfs", Source := "sysfs",
      Options := ["nosuid", "noexec", "nodev", "ro"] } ]

/-- A freshly created builder: default mounts, one default rlimit, nothing
called yet. -/
def freshBuilder : Generator :=
  { Mounts := defaultMounts
    Rlimits := some [{ Typ := "RLIMIT_NOFILE", Hard := 1024, Soft := 1024 }] }

/-- A specification with every namespace shared with the host, unprivileged,
no limits and no ID mappings declared. -/
def hostSpec : SpecGenerator :=
  { UserNS := { NSMode := NamespaceMode.Host }
    NetNS := { NSMode := NamespaceMode.Host }
    IpcNS := { NSMode := NamespaceMode.Host }
    PidNS := { NSMode := NamespaceMode.Host } }

/-! ## Notions used in the statements -/

/-- The builder call issued for one declared limit. -/
def rlimitCall (ToUpper : String → String) (u : POSIXRlimit) : Call :=
  Call.AddProcessRlimits ("RLIMIT_" ++ ToUpper u.Typ) u.Hard u.Soft

/-- A declared limit whose kind uppercases to `kind`. -/
def declares (ToUpper : String → String) (kind : String) (u : POSIXRlimit) : Bool :=
  ToUpper u.Typ == kind

/-- The builder operations recorded on `g1` after those of `g0`. -/
def issued (g0 g1 : Generator) : List Call := g1.calls.drop g0.calls.length

/-- The entries of a mount list at destination `dest`. -/
def mountsAt (dest : String) (ms : List Mount) : List Mount :=
  ms.filter (fun m => m.Destination == dest)

/-- The entries at destination `dest` that a list of builder operations adds,
in the order of the `AddMount` calls. -/
def addedAt (dest : String) : List Call → List Mount
  | [] => []
  | Call.AddMount mnt :: cs =>
    if mnt.Destination == dest then mnt :: addedAt dest cs else addedAt dest cs
  | _ :: cs => addedAt dest cs

/-- The builder at the end of the mount plan when the builder was created as
`g` and the probe of lines 110-132 gave `gid5`: the steps of `mountPlan` with
the two fallible calls taken out. -/
def mountSteps (isRootless : Bool) (s : SpecGenerator) (gid5 : Bool) (g : Generator) :
    Generator :=
  let sys := sysMount isRootless s { g.RemoveMount "/dev/shm" with HostSpecific := true }
  cgroupMount sys.addCgroup sys.cgroupPerm
    (procStep isRootless s (mqueueMount isRootless s (devPtsMount gid5 sys.g)))

/-- The builder operations of the `/sys` step. -/
def sysCalls (isRootless : Bool) (s : SpecGenerator) : List Call :=
  if s.Privileged && canMountSys isRootless s then
    [Call.RemoveMount "/sys", Call.AddMount sysfsMnt]
  else if !canMountSys isRootless s then
    [Call.RemoveMount "/sys", Call.AddMount (sysBindMnt (if s.Privileged then "rw" else "ro"))]
      ++ (if !s.Privileged && isRootless then [Call.AddLinuxMaskedPaths "/sys/kernel"] else [])
  else []

/-- The builder operations of the `/dev/pts` step. -/
def devPtsCalls (gid5 : Bool) : List Call :=
  if !gid5 then [Call.RemoveMount "/dev/pts", Call.AddMount devPts] else []

/-- The builder operations of the `/dev/mqueue` step. -/
def mqueueCalls (isRootless : Bool) (s : SpecGenerator) : List Call :=
  if inUserNS isRootless s && s.IpcNS.IsHost then
    [Call.RemoveMount "/dev/mqueue", Call.AddMount devMqueue]
  else []

/-- The builder operations of the `/proc` step. -/
def procCalls (isRootless : Bool) (s : SpecGenerator) : List Call :=
  if inUserNS isRootless s && s.PidNS.IsHost then
    [Call.RemoveMount "/proc", Call.AddMount procMount]
  else []

/-- The builder operations of the cgroup step. -/
def cgroupCalls (isRootless : Bool) (s : SpecGenerator) : List Call :=
  if canMountSys isRootless s then
    [Call.AddMount (cgroupMnt (if s.Privileged then "rw" else "ro"))]
  else []

/-- A specification like `hostSpec`, except that the user-namespace mode is
none of host, path-based, container-shared and private. -/
def otherUserSpec : SpecGenerator :=
  { hostSpec with UserNS := { NSMode := NamespaceMode.Other } }

/-- The process GID map `0 1000 1` / `1 100000 4`: container GIDs 0 to 4. -/
def fiveGids : List UserIDMap :=
  [ { ID := 0, ParentID := 1000, Count := 1 }, { ID := 1, ParentID := 100000, Count := 4 } ]

/-- The effect of one builder operation on the mount list. -/
def applyCall : Call → List Mount → List Mount
  | Call.RemoveMount dest, ms => ms.filter (fun m => m.Destination != dest)
  | Call.AddMount mnt, ms => ms ++ [mnt]
  | _, ms => ms

/-- The effect of a list of builder operations, oldest first, on the mount
list. -/
def applyCalls (cs : List Call) (ms : List Mount) : List Mount :=
  cs.foldl (fun ms c => applyCall c ms) ms

/-- The destinations named by the `RemoveMount` calls of a list of builder
operations. -/
def removedDests : List Call → List String
  | [] => []
  | Call.RemoveMount dest :: cs => dest :: removedDests cs
  | _ :: cs => removedDests cs

/-- The entries given to the `AddMount` calls of a list of builder operations,
in the order of the calls. -/
def addedMounts : List Call → List Mount
  | [] => []
  | Call.AddMount mnt :: cs => mnt :: addedMounts cs
  | _ :: cs => addedMounts cs

/-- The entries of a mount list whose destination is not among `removed`, in
their order. -/
def keptMounts (removed : List String) (ms : List Mount) : List Mount :=
  ms.filter (fun m => !removed.contains m.Destination)

/-- No `RemoveMount` names a destination at which an earlier operation of the
list, or one of `added`, added an entry. -/
def removesFirst (added : List String) : List Call → Bool
  | [] => true
  | Call.AddMount mnt :: cs => removesFirst (added ++ [mnt.Destination]) cs
  | Call.RemoveMount dest :: cs => !added.contains dest && removesFirst added cs
  | _ :: cs => removesFirst added cs

/-- The builder operations of the whole mount plan when the probe of lines
110-132 gave `gid5`. -/
def planCalls (isRootless : Bool) (s : SpecGenerator) (gid5 : Bool) : List Call :=
  [Call.RemoveMount "/dev/shm"] ++ sysCalls isRootless s ++ devPtsCalls gid5
    ++ mqueueCalls isRootless s ++ procCalls isRootless s ++ cgroupCalls isRootless s

/-- A specification like `hostSpec`, except that the user namespace is private
and the declared GID map is the one range of container GIDs 0 to 4. -/
def mappedSpec : SpecGenerator :=
  { hostSpec with
    UserNS := { NSMode := NamespaceMode.Private }
    IDMappings := some { GIDMap := [{ ContainerID := 0, HostID := 100000, Size := 5 }] } }

/-- The executed calls of `DevicesFromPath` among `steps`, in their order. -/
def deviceSteps (steps : List StepRecord) : List StepRecord :=
  steps.filter (fun x =>
    match x.step with
    | Step.DevicesFromPath _ => true
    | _ => false)

/-- The executed calls of `addPrivilegedDevices` among `steps`. -/
def privilegedSteps (steps : List StepRecord) : List StepRecord :=
  steps.filter (fun x => x.step == Step.addPrivilegedDevices)

/-- The call site `step` can have returned the error `err`: the function
called there returned it, on some builder; `GetAvailableGids` returns the error
of the read of the GID map as it is.  The call sites of the functions that
return no error, and of `addRlimits`, have none. -/
def failedWith (c : Collaborators) (s : SpecGenerator) (err : Error) : Step → Prop
  | Step.New => c.New = Except.error err
  | Step.GetAvailableGids => c.parseIDMapFile = Except.error err
  | Step.addPrivilegedDevices => ∃ g, c.addPrivilegedDevices g = Except.error err
  | Step.DevicesFromPath path => ∃ g, c.DevicesFromPath g path = Except.error err
  | Step.specConfigureNamespaces => ∃ g, c.specConfigureNamespaces s g = Except.error err
  | Step.securityConfigureGenerator => ∃ g, c.securityConfigureGenerator s g = Except.error err
  | Step.InitFSMounts => ∃ m, c.processOptions m = Except.error err
  | Step.BlockAccessToKernelFilesystems => False
  | Step.addRlimits => False
  | Step.SupercedeUserMounts => False

/-- A run stops at the first error: with a specification returned every
executed call returned a nil error; with an error returned the last executed
call is the one that returned it and every call before it returned a nil
error. -/
def Run.atomic (c : Collaborators) (s : SpecGenerator) (r : Run) : Prop :=
  match r.result with
  | Except.ok _ => ∀ x ∈ r.steps, x.err = none
  | Except.error err =>
    ∃ pre last, r.steps = pre ++ [last] ∧ last.err = some err
      ∧ failedWith c s err last.step ∧ ∀ x ∈ pre, x.err = none

/-- Collaborators for a host on which every call succeeds, except that the
path `/dev/missing` is no device node: the builder is created as
`freshBuilder`, the process GID map is `fiveGids`, a resolved device is added
to the device nodes, the other functions leave the builder as it is and the
mount options as declared. -/
def plainCollaborators : Collaborators :=
  { New := Except.ok freshBuilder
    parseIDMapFile := Except.ok fiveGids
    ToUpper := asciiToUpper
    addPrivilegedDevices := fun g => Except.ok { g with Devices := g.Devices ++ ["/dev/null"] }
    DevicesFromPath := fun g path =>
      if path = "/dev/missing" then Except.error "not a device node"
      else Except.ok { g with Devices := g.Devices ++ [path] }
    BlockAccessToKernelFilesystems := fun _ _ g => g
    specConfigureNamespaces := fun _ g => Except.ok g
    securityConfigureGenerator := fun _ g => Except.ok g
    processOptions := fun m => Except.ok m.Options }

/-! ## Resource-limit resolver: auxiliary facts -/

theorem rlimit_name_eq (a b : String) : "RLIMIT_" ++ a = "RLIMIT_" ++ b ↔ a = b := by
  constructor
  · intro h
    have h2 := congrArg String.data h
    simp only [String.data_append] at h2
    exact String.ext (List.append_cancel_left h2)
  · intro h
    rw [h]

theorem rlimitIter_calls (ToUpper : String → String) (st : RlimitLoop) (u : POSIXRlimit) :
    (rlimitIter ToUpper st u).g.calls = st.g.calls ++ [rlimitCall ToUpper u] := by
  unfold rlimitIter rlimitCall
  by_cases h1 : "RLIMIT_" ++ ToUpper u.Typ = "RLIMIT_NOFILE"
  · simp [h1, Generator.AddProcessRlimits]
  · by_cases h2 : "RLIMIT_" ++ ToUpper u.Typ = "RLIMIT_NPROC"
    · simp [h2, Generator.AddProcessRlimits]
    · simp [h1, h2, Generator.AddProcessRlimits]

theorem rlimitIter_nofileSet (ToUpper : String → String) (st : RlimitLoop) (u : POSIXRlimit) :
    (rlimitIter ToUpper st u).nofileSet = (st.nofileSet || declares ToUpper "NOFILE" u) := by
  have e : ("RLIMIT_" ++ ToUpper u.Typ = "RLIMIT_NOFILE") ↔ ToUpper u.Typ = "NOFILE" :=
    rlimit_name_eq (ToUpper u.Typ) "NOFILE"
  unfold rlimitIter declares
  by_cases h1 : ToUpper u.Typ = "NOFILE"
  · simp [h1]
  · have h1b : ¬ ("RLIMIT_" ++ ToUpper u.Typ = "RLIMIT_NOFILE") := fun h => h1 (e.mp h)
    by_cases h2 : "RLIMIT_" ++ ToUpper u.Typ = "RLIMIT_NPROC"
    · simp [h1, h1b, h2]
    · simp [h1, h1b, h2]

theorem rlimitIter_nprocSet (ToUpper : String → String) (st : RlimitLoop) (u : POSIXRlimit) :
    (rlimitIter ToUpper st u).nprocSet = (st.nprocSet || declares ToUpper "NPROC" u) := by
  have e : ("RLIMIT_" ++ ToUpper u.Typ = "RLIMIT_NPROC") ↔ ToUpper u.Typ = "NPROC" :=
    rlimit_name_eq (ToUpper u.Typ) "NPROC"
  have e1 : ("RLIMIT_" ++ ToUpper u.Typ = "RLIMIT_NOFILE") ↔ ToUpper u.Typ = "NOFILE" :=
    rlimit_name_eq (ToUpper u.Typ) "NOFILE"
  unfold rlimitIter declares
  by_cases h2 : ToUpper u.Typ = "NPROC"
  · have h1 : ¬ ("RLIMIT_" ++ ToUpper u.Typ = "RLIMIT_NOFILE") := by
      rw [e1, h2]; decide
    have h2b : "RLIMIT_" ++ ToUpper u.Typ = "RLIMIT_NPROC" := e.mpr h2
    simp [h1, h2, h2b]
  · have h2b : ¬ ("RLIMIT_" ++ ToUpper u.Typ = "RLIMIT_NPROC") := fun h => h2 (e.mp h)
    by_cases h1 : "RLIMIT_" ++ ToUpper u.Typ = "RLIMIT_NOFILE"
    · simp [h1, h2]
    · simp [h1, h2, h2b]

theorem rlimitLoop_calls (ToUpper : String → String) (l : List POSIXRlimit) (st : RlimitLoop) :
    (l.foldl (rlimitIter ToUpper) st).g.calls = st.g.calls ++ l.map (rlimitCall ToUpper) := by
  induction l generalizing st with
  | nil => simp
  | cons u us ih => simp [List.foldl_cons, ih, rlimitIter_calls]

theorem rlimitLoop_nofileSet (ToUpper : String → String) (l : List POSIXRlimit) (st : RlimitLoop) :
    (l.foldl (rlimitIter ToUpper) st).nofileSet
      = (st.nofileSet || l.any (declares ToUpper "NOFILE")) := by
  induction l generalizing st with
  | nil => simp
  | cons u us ih => simp [List.foldl_cons, ih, rlimitIter_nofileSet, Bool.or_assoc]

theorem rlimitLoop_nprocSet (ToUpper : String → String) (l : List POSIXRlimit) (st : RlimitLoop) :
    (l.foldl (rlimitIter ToUpper) st).nprocSet
      = (st.nprocSet || l.any (declares ToUpper "NPROC")) := by
  induction l generalizing st with
  | nil => simp
  | cons u us ih => simp [List.foldl_cons, ih, rlimitIter_nprocSet, Bool.or_assoc]

theorem issued_of_calls (g0 g1 : Generator) (l : List Call) (h : g1.calls = g0.calls ++ l) :
    issued g0 g1 = l := by
  unfold issued
  rw [h]
  exact List.drop_left g0.calls l

theorem mem_setRlimit_self (rType : String) (rHard rSoft : Nat) (l : List POSIXRlimit)
    (h : l.any (fun r => r.Typ == rType) = true) :
    ({ Typ := rType, Hard := rHard, Soft := rSoft } : POSIXRlimit) ∈ setRlimit rType rHard rSoft l := by
  induction l with
  | nil => simp at h
  | cons r rs ih =>
    unfold setRlimit
    by_cases hr : r.Typ = rType
    · simp [hr]
    · have h2 : rs.any (fun r => r.Typ == rType) = true := by
        simpa [List.any_cons, hr] using h
      simp [hr, ih h2]

theorem mem_setRlimit_of_ne (rType : String) (rHard rSoft : Nat) (l : List POSIXRlimit)
    (r : POSIXRlimit) (hr : r ∈ l) (hne : r.Typ ≠ rType) :
    r ∈ setRlimit rType rHard rSoft l := by
  induction l with
  | nil => simp at hr
  | cons x xs ih =>
    unfold setRlimit
    rcases List.mem_cons.mp hr with hx | hx
    · subst hx
      simp [hne]
    · by_cases hxt : x.Typ = rType
      · simp [hxt, hx]
      · simp [hxt, ih hx]

theorem mem_AddProcessRlimits_self (g : Generator) (rType : String) (rHard rSoft : Nat) :
    ({ Typ := rType, Hard := rHard, Soft := rSoft } : POSIXRlimit)
      ∈ (g.AddProcessRlimits rType rHard rSoft).Rlimits.getD [] := by
  unfold Generator.AddProcessRlimits
  by_cases h : (g.Rlimits.getD []).any (fun r => r.Typ == rType) = true
  · simp only [h, if_true, Option.getD_some]
    exact mem_setRlimit_self rType rHard rSoft _ h
  · simp only [h, Option.getD_some]
    simp

theorem mem_AddProcessRlimits_of_ne (g : Generator) (rType : String) (rHard rSoft : Nat)
    (r : POSIXRlimit) (hr : r ∈ g.Rlimits.getD []) (hne : r.Typ ≠ rType) :
    r ∈ (g.AddProcessRlimits rType rHard rSoft).Rlimits.getD [] := by
  unfold Generator.AddProcessRlimits
  by_cases h : (g.Rlimits.getD []).any (fun r => r.Typ == rType) = true
  · simp only [h, if_true, Option.getD_some]
    exact mem_setRlimit_of_ne rType rHard rSoft _ r hr hne
  · simp only [h, Option.getD_some]
    simp [hr]

theorem AddProcessRlimits_calls (g : Generator) (rType : String) (rHard rSoft : Nat) :
    (g.AddProcessRlimits rType rHard rSoft).calls
      = g.calls ++ [Call.AddProcessRlimits rType rHard rSoft] := rfl

/-! ## Resource-limit resolver: the claims -/

/-- C1: when the rlimit list of the specification is unset (nil), then for
either value of the rootless flag `addRlimits` returns success, the builder it
leaves differs from the one it got only in that the process rlimits are nil
(what the builder held is discarded), and no builder operation, so no
`AddProcessRlimits`, is issued. -/
theorem addRlimits_unset (ToUpper : String → String) (isRootless : Bool)
    (s : SpecGenerator) (g : Generator) (h : s.Rlimits = none) :
    addRlimits ToUpper isRootless s g = Except.ok { g with Rlimits := none }
      ∧ issued g { g with Rlimits := none } = [] := by
  constructor
  · unfold addRlimits
    rw [h]
  · exact issued_of_calls g _ [] (by simp)

/-- Witness for C1: rootless execution, limits unset, a freshly created builder
holding its default `RLIMIT_NOFILE` entry. -/
theorem addRlimits_unset_witness :
    hostSpec.Rlimits = none
      ∧ (addRlimits asciiToUpper true hostSpec freshBuilder
            = Except.ok { freshBuilder with Rlimits := none }
          ∧ issued freshBuilder { freshBuilder with Rlimits := none } = []) :=
  ⟨rfl, addRlimits_unset asciiToUpper true hostSpec freshBuilder rfl⟩

/-- C2, counterexample: not rootless, rlimit list unset (so no NOFILE limit is
declared), builder as freshly created: the translation succeeds, yet the output
rlimits are nil and hold no `RLIMIT_NOFILE` entry at 1048576. -/
theorem addRlimits_unset_no_default :
    hostSpec.Rlimits = none
      ∧ (∀ u ∈ hostSpec.Rlimits.getD [], asciiToUpper u.Typ ≠ "NOFILE")
      ∧ ¬ ∃ g1, addRlimits asciiToUpper false hostSpec freshBuilder = Except.ok g1
            ∧ ∃ r ∈ g1.Rlimits.getD [],
                r.Typ = "RLIMIT_NOFILE" ∧ r.Hard = 1048576 ∧ r.Soft = 1048576 := by
  refine ⟨rfl, ?_, ?_⟩
  · intro u hu
    simp [hostSpec] at hu
  · rintro ⟨g1, hg, r, hr, -⟩
    have e : addRlimits asciiToUpper false hostSpec freshBuilder
        = Except.ok { freshBuilder with Rlimits := none } := rfl
    rw [e] at hg
    injection hg with hg
    subst hg
    simp at hr

/-- C2, amended: not rootless and the rlimit list set to `L` (an explicit
empty list included).  The translation succeeds; if no element of `L` has a
kind that uppercases to NOFILE, the output rlimits hold the entry
`RLIMIT_NOFILE` with hard = soft = 1048576, and if none has a kind that
uppercases to NPROC they hold the entry `RLIMIT_NPROC` with hard = soft =
1048576. -/
theorem addRlimits_set_defaults (ToUpper : String → String) (s : SpecGenerator)
    (g : Generator) (L : List POSIXRlimit) (h : s.Rlimits = some L) :
    ∃ g1, addRlimits ToUpper false s g = Except.ok g1
      ∧ (L.any (fun u => ToUpper u.Typ == "NOFILE") = false →
          ({ Typ := "RLIMIT_NOFILE", Hard := 1048576, Soft := 1048576 } : POSIXRlimit)
            ∈ g1.Rlimits.getD [])
      ∧ (L.any (fun u => ToUpper u.Typ == "NPROC") = false →
          ({ Typ := "RLIMIT_NPROC", Hard := 1048576, Soft := 1048576 } : POSIXRlimit)
            ∈ g1.Rlimits.getD []) := by
  unfold addRlimits
  rw [h]
  refine ⟨_, rfl, ?_, ?_⟩
  · intro hno
    have hset : (L.foldl (rlimitIter ToUpper)
        { nofileSet := false, nprocSet := false, g := g }).nofileSet = false := by
      rw [rlimitLoop_nofileSet]
      simpa [declares] using hno
    simp only [hset, Bool.not_false, Bool.not_false, Bool.and_self, if_true]
    split
    · exact mem_AddProcessRlimits_of_ne _ _ _ _ _ (mem_AddProcessRlimits_self _ _ _ _) (by decide)
    · exact mem_AddProcessRlimits_self _ _ _ _
  · intro hno
    have hset : (L.foldl (rlimitIter ToUpper)
        { nofileSet := false, nprocSet := false, g := g }).nprocSet = false := by
      rw [rlimitLoop_nprocSet]
      simpa [declares] using hno
    simp only [hset, Bool.not_false, Bool.and_self, if_true]
    exact mem_AddProcessRlimits_self _ _ _ _

/-- Witness for C2 as amended: not rootless, one declared limit of kind `core`, a
freshly created builder. -/
theorem addRlimits_set_defaults_witness :
    ({ hostSpec with Rlimits := some [{ Typ := "core", Hard := 7, Soft := 3 }] } :
        SpecGenerator).Rlimits = some [{ Typ := "core", Hard := 7, Soft := 3 }]
      ∧ ∃ g1, addRlimits asciiToUpper false
            { hostSpec with Rlimits := some [{ Typ := "core", Hard := 7, Soft := 3 }] }
            freshBuilder = Except.ok g1
          ∧ (([{ Typ := "core", Hard := 7, Soft := 3 }] : List POSIXRlimit).any
                (fun u => asciiToUpper u.Typ == "NOFILE") = false →
              ({ Typ := "RLIMIT_NOFILE", Hard := 1048576, Soft := 1048576 } : POSIXRlimit)
                ∈ g1.Rlimits.getD [])
          ∧ (([{ Typ := "core", Hard := 7, Soft := 3 }] : List POSIXRlimit).any
                (fun u => asciiToUpper u.Typ == "NPROC") = false →
              ({ Typ := "RLIMIT_NPROC", Hard := 1048576, Soft := 1048576 } : POSIXRlimit)
                ∈ g1.Rlimits.getD []) :=
  ⟨rfl, addRlimits_set_defaults asciiToUpper _ freshBuilder _ rfl⟩

/-- C3: under rootless execution `addRlimits` returns success and the
`AddProcessRlimits` calls it issues are exactly one per declared limit, in
declared order, each with the name `RLIMIT_` followed by the uppercased kind
and with the declared hard and soft values (none when the list is unset or
empty); so every value an issued call carries, 1048576 included, is one the
user declared, and no default is added. -/
theorem addRlimits_rootless (ToUpper : String → String) (s : SpecGenerator) (g : Generator) :
    ∃ g1, addRlimits ToUpper true s g = Except.ok g1
      ∧ issued g g1 = (s.Rlimits.getD []).map
          (fun u => Call.AddProcessRlimits ("RLIMIT_" ++ ToUpper u.Typ) u.Hard u.Soft)
      ∧ ∀ c ∈ issued g g1, ∃ u ∈ s.Rlimits.getD [],
          c = Call.AddProcessRlimits ("RLIMIT_" ++ ToUpper u.Typ) u.Hard u.Soft := by
  have key : ∃ g1, addRlimits ToUpper true s g = Except.ok g1
      ∧ issued g g1 = (s.Rlimits.getD []).map (rlimitCall ToUpper) := by
    unfold addRlimits
    cases hs : s.Rlimits with
    | none => exact ⟨_, rfl, issued_of_calls g _ [] (by simp)⟩
    | some L =>
      refine ⟨_, rfl, ?_⟩
      apply issued_of_calls
      simp [rlimitLoop_calls]
  obtain ⟨g1, h1, h2⟩ := key
  refine ⟨g1, h1, h2, ?_⟩
  intro c hc
  rw [h2] at hc
  obtain ⟨u, hu, rfl⟩ := List.mem_map.mp hc
  exact ⟨u, hu, rfl⟩

/-- C4: not rootless and the rlimit list set to `L` (an explicit empty list
included).  `addRlimits` returns success and the `AddProcessRlimits` calls it
issues are: one call (`RLIMIT_` followed by the uppercased kind, hard, soft)
per element of `L` in order; then (`RLIMIT_NOFILE`, 1048576, 1048576) exactly
when no element has a kind that uppercases to NOFILE; then (`RLIMIT_NPROC`,
1048576, 1048576) exactly when no element has a kind that uppercases to NPROC.
The declared kind enters the test only through its uppercased form, so the
detection does not depend on the case in which the kind was written. -/
theorem addRlimits_set_calls (ToUpper : String → String) (s : SpecGenerator)
    (g : Generator) (L : List POSIXRlimit) (h : s.Rlimits = some L) :
    ∃ g1, addRlimits ToUpper false s g = Except.ok g1
      ∧ issued g g1 =
          L.map (fun u => Call.AddProcessRlimits ("RLIMIT_" ++ ToUpper u.Typ) u.Hard u.Soft)
            ++ (if L.any (fun u => ToUpper u.Typ == "NOFILE") then []
                else [Call.AddProcessRlimits "RLIMIT_NOFILE" 1048576 1048576])
            ++ (if L.any (fun u => ToUpper u.Typ == "NPROC") then []
                else [Call.AddProcessRlimits "RLIMIT_NPROC" 1048576 1048576]) := by
  unfold addRlimits
  rw [h]
  refine ⟨_, rfl, ?_⟩
  apply issued_of_calls
  have h1 := rlimitLoop_nofileSet ToUpper L { nofileSet := false, nprocSet := false, g := g }
  have h2 := rlimitLoop_nprocSet ToUpper L { nofileSet := false, nprocSet := false, g := g }
  have h3 := rlimitLoop_calls ToUpper L { nofileSet := false, nprocSet := false, g := g }
  simp only [Bool.false_or] at h1 h2
  have d1 : L.any (declares ToUpper "NOFILE") = L.any (fun u => ToUpper u.Typ == "NOFILE") := rfl
  have d2 : L.any (declares ToUpper "NPROC") = L.any (fun u => ToUpper u.Typ == "NPROC") := rfl
  rw [d1] at h1
  rw [d2] at h2
  simp only [h1, h2, Bool.not_false, Bool.and_true]
  cases hn : L.any (fun u => ToUpper u.Typ == "NOFILE") <;>
    cases hp : L.any (fun u => ToUpper u.Typ == "NPROC") <;>
    simp [h3, AddProcessRlimits_calls, rlimitCall, kernelMax]

/-- Witness for C4: not rootless, one declared limit of kind `nofile` written in
lower case, a freshly created builder. -/
theorem addRlimits_set_calls_witness :
    ({ hostSpec with Rlimits := some [{ Typ := "nofile", Hard := 7, Soft := 3 }] } :
        SpecGenerator).Rlimits = some [{ Typ := "nofile", Hard := 7, Soft := 3 }]
      ∧ ∃ g1, addRlimits asciiToUpper false
            { hostSpec with Rlimits := some [{ Typ := "nofile", Hard := 7, Soft := 3 }] }
            freshBuilder = Except.ok g1
          ∧ issued freshBuilder g1 =
              ([{ Typ := "nofile", Hard := 7, Soft := 3 }] : List POSIXRlimit).map
                  (fun u => Call.AddProcessRlimits ("RLIMIT_" ++ asciiToUpper u.Typ) u.Hard u.Soft)
                ++ (if ([{ Typ := "nofile", Hard := 7, Soft := 3 }] : List POSIXRlimit).any
                        (fun u => asciiToUpper u.Typ == "NOFILE") then []
                    else [Call.AddProcessRlimits "RLIMIT_NOFILE" 1048576 1048576])
                ++ (if ([{ Typ := "nofile", Hard := 7, Soft := 3 }] : List POSIXRlimit).any
                        (fun u => asciiToUpper u.Typ == "NPROC") then []
                    else [Call.AddProcessRlimits "RLIMIT_NPROC" 1048576 1048576]) :=
  ⟨rfl, addRlimits_set_calls asciiToUpper _ freshBuilder _ rfl⟩

/-! ## Mount plan: auxiliary facts -/

theorem mountPlan_ok (isRootless : Bool) (g0 g1 : Generator)
    (parseIDMapFile : Except Error (List UserIDMap)) (s : SpecGenerator)
    (h : mountPlan isRootless (Except.ok g0) parseIDMapFile s = Except.ok g1) :
    ∃ gid5, gid5Available isRootless parseIDMapFile s = Except.ok gid5
      ∧ g1 = mountSteps isRootless s gid5 g0 := by
  unfold mountPlan at h
  cases hp : gid5Available isRootless parseIDMapFile s with
  | error err => simp [hp] at h
  | ok gid5 =>
    simp only [hp] at h
    injection h with h
    exact ⟨gid5, rfl, h.symm⟩

theorem mountPlan_of_probe (isRootless : Bool) (g0 : Generator)
    (parseIDMapFile : Except Error (List UserIDMap)) (s : SpecGenerator) (gid5 : Bool)
    (h : gid5Available isRootless parseIDMapFile s = Except.ok gid5) :
    mountPlan isRootless (Except.ok g0) parseIDMapFile s
      = Except.ok (mountSteps isRootless s gid5 g0) := by
  unfold mountPlan
  simp only [h]
  rfl

theorem mountsAt_append (dest : String) (a b : List Mount) :
    mountsAt dest (a ++ b) = mountsAt dest a ++ mountsAt dest b := by
  simp [mountsAt]

theorem mountsAt_RemoveMount_self (dest : String) (g : Generator) :
    mountsAt dest (g.RemoveMount dest).Mounts = [] := by
  simp [mountsAt, Generator.RemoveMount, List.filter_filter, List.filter_eq_nil_iff]

theorem mountsAt_RemoveMount_ne (dest other : String) (g : Generator) (hne : dest ≠ other) :
    mountsAt dest (g.RemoveMount other).Mounts = mountsAt dest g.Mounts := by
  simp only [mountsAt, Generator.RemoveMount, List.filter_filter]
  apply List.filter_congr
  intro m _
  by_cases hm : m.Destination = dest
  · simp [hm, hne]
  · simp [hm]

theorem mountsAt_AddMount (dest : String) (g : Generator) (mnt : Mount) :
    mountsAt dest (g.AddMount mnt).Mounts
      = mountsAt dest g.Mounts ++ (if mnt.Destination == dest then [mnt] else []) := by
  simp only [Generator.AddMount, mountsAt_append]
  by_cases hm : mnt.Destination = dest
  · simp [mountsAt, hm]
  · simp [mountsAt, hm]

theorem addedAt_append (dest : String) (a b : List Call) :
    addedAt dest (a ++ b) = addedAt dest a ++ addedAt dest b := by
  induction a with
  | nil => rfl
  | cons c cs ih =>
    cases c with
    | AddMount mnt =>
      by_cases hm : mnt.Destination = dest
      · simp [addedAt, hm, ih]
      · simp [addedAt, hm, ih]
    | RemoveMount d => simpa [addedAt] using ih
    | AddLinuxMaskedPaths q => simpa [addedAt] using ih
    | AddProcessRlimits a b c => simpa [addedAt] using ih

theorem sysMount_calls (isRootless : Bool) (s : SpecGenerator) (g : Generator) :
    (sysMount isRootless s g).g.calls = g.calls ++ sysCalls isRootless s := by
  unfold sysMount sysCalls
  cases s.Privileged <;> cases canMountSys isRootless s <;> cases isRootless <;>
    simp [Generator.RemoveMount, Generator.AddMount, Generator.AddLinuxMaskedPaths]

theorem sysMount_addCgroup (isRootless : Bool) (s : SpecGenerator) (g : Generator) :
    (sysMount isRootless s g).addCgroup = canMountSys isRootless s := by
  unfold sysMount
  cases s.Privileged <;> cases canMountSys isRootless s <;> simp

theorem sysMount_cgroupPerm (isRootless : Bool) (s : SpecGenerator) (g : Generator)
    (h : canMountSys isRootless s = true) :
    (sysMount isRootless s g).cgroupPerm = (if s.Privileged then "rw" else "ro") := by
  unfold sysMount
  cases s.Privileged <;> simp [h]

theorem sysMount_MaskedPaths (isRootless : Bool) (s : SpecGenerator) (g : Generator) :
    (sysMount isRootless s g).g.MaskedPaths
      = g.MaskedPaths ++
        (if !canMountSys isRootless s && !s.Privileged && isRootless then ["/sys/kernel"]
         else []) := by
  unfold sysMount
  cases s.Privileged <;> cases canMountSys isRootless s <;> cases isRootless <;>
    simp [Generator.RemoveMount, Generator.AddMount, Generator.AddLinuxMaskedPaths]

theorem sysMount_mountsAt (isRootless : Bool) (s : SpecGenerator) (g : Generator) :
    mountsAt "/sys" (sysMount isRootless s g).g.Mounts
      = (if s.Privileged && canMountSys isRootless s then [sysfsMnt]
         else if !canMountSys isRootless s then
           [sysBindMnt (if s.Privileged then "rw" else "ro")]
         else mountsAt "/sys" g.Mounts) := by
  have e1 : mountsAt "/sys" ((g.RemoveMount "/sys").AddMount sysfsMnt).Mounts = [sysfsMnt] := by
    rw [mountsAt_AddMount, mountsAt_RemoveMount_self]
    rfl
  have e2 : ∀ r : String,
      mountsAt "/sys" ((g.RemoveMount "/sys").AddMount (sysBindMnt r)).Mounts
        = [sysBindMnt r] := by
    intro r
    rw [mountsAt_AddMount, mountsAt_RemoveMount_self]
    rfl
  have e3 : ∀ r : String,
      mountsAt "/sys"
          (((g.RemoveMount "/sys").AddMount (sysBindMnt r)).AddLinuxMaskedPaths
            "/sys/kernel").Mounts
        = [sysBindMnt r] := fun r => e2 r
  unfold sysMount
  cases s.Privileged <;> cases canMountSys isRootless s <;> cases isRootless <;>
    simp [e1, e2, e3]

theorem devPtsMount_calls (gid5 : Bool) (g : Generator) :
    (devPtsMount gid5 g).calls = g.calls ++ devPtsCalls gid5 := by
  unfold devPtsMount devPtsCalls
  cases gid5 <;> simp [Generator.RemoveMount, Generator.AddMount]

theorem mqueueMount_calls (isRootless : Bool) (s : SpecGenerator) (g : Generator) :
    (mqueueMount isRootless s g).calls = g.calls ++ mqueueCalls isRootless s := by
  unfold mqueueMount mqueueCalls
  cases inUserNS isRootless s && s.IpcNS.IsHost <;>
    simp [Generator.RemoveMount, Generator.AddMount]

theorem procStep_calls (isRootless : Bool) (s : SpecGenerator) (g : Generator) :
    (procStep isRootless s g).calls = g.calls ++ procCalls isRootless s := by
  unfold procStep procCalls
  cases inUserNS isRootless s && s.PidNS.IsHost <;>
    simp [Generator.RemoveMount, Generator.AddMount]

theorem devPtsMount_MaskedPaths (gid5 : Bool) (g : Generator) :
    (devPtsMount gid5 g).MaskedPaths = g.MaskedPaths := by
  unfold devPtsMount
  cases gid5 <;> rfl

theorem mqueueMount_MaskedPaths (isRootless : Bool) (s : SpecGenerator) (g : Generator) :
    (mqueueMount isRootless s g).MaskedPaths = g.MaskedPaths := by
  unfold mqueueMount
  cases inUserNS isRootless s && s.IpcNS.IsHost <;> rfl

theorem procStep_MaskedPaths (isRootless : Bool) (s : SpecGenerator) (g : Generator) :
    (procStep isRootless s g).MaskedPaths = g.MaskedPaths := by
  unfold procStep
  cases inUserNS isRootless s && s.PidNS.IsHost <;> rfl

theorem cgroupMount_MaskedPaths (addCgroup : Bool) (perm : String) (g : Generator) :
    (cgroupMount addCgroup perm g).MaskedPaths = g.MaskedPaths := by
  unfold cgroupMount
  cases addCgroup <;> rfl

theorem devPtsMount_mountsAt (dest : String) (gid5 : Bool) (g : Generator)
    (hne : dest ≠ "/dev/pts") :
    mountsAt dest (devPtsMount gid5 g).Mounts = mountsAt dest g.Mounts := by
  unfold devPtsMount
  cases gid5
  · have hd : (devPts.Destination == dest) = false := by
      simpa [devPts] using fun h : "/dev/pts" = dest => hne h.symm
    simp [mountsAt_AddMount, mountsAt_RemoveMount_ne dest "/dev/pts" g hne, hd]
  · rfl

theorem mqueueMount_mountsAt (dest : String) (isRootless : Bool) (s : SpecGenerator)
    (g : Generator) (hne : dest ≠ "/dev/mqueue") :
    mountsAt dest (mqueueMount isRootless s g).Mounts = mountsAt dest g.Mounts := by
  unfold mqueueMount
  cases inUserNS isRootless s && s.IpcNS.IsHost
  · rfl
  · have hd : (devMqueue.Destination == dest) = false := by
      simpa [devMqueue] using fun h : "/dev/mqueue" = dest => hne h.symm
    simp [mountsAt_AddMount, mountsAt_RemoveMount_ne dest "/dev/mqueue" g hne, hd]

theorem procStep_mountsAt (dest : String) (isRootless : Bool) (s : SpecGenerator)
    (g : Generator) (hne : dest ≠ "/proc") :
    mountsAt dest (procStep isRootless s g).Mounts = mountsAt dest g.Mounts := by
  unfold procStep
  cases inUserNS isRootless s && s.PidNS.IsHost
  · rfl
  · have hd : (procMount.Destination == dest) = false := by
      simpa [procMount] using fun h : "/proc" = dest => hne h.symm
    simp [mountsAt_AddMount, mountsAt_RemoveMount_ne dest "/proc" g hne, hd]

theorem cgroupMount_mountsAt (dest : String) (addCgroup : Bool) (perm : String)
    (g : Generator) :
    mountsAt dest (cgroupMount addCgroup perm g).Mounts
      = mountsAt dest g.Mounts
          ++ (if addCgroup && "/sys/fs/cgroup" == dest then [cgroupMnt perm] else []) := by
  unfold cgroupMount
  cases addCgroup
  · simp
  · simp [mountsAt_AddMount, cgroupMnt]

theorem mountSteps_calls (isRootless : Bool) (s : SpecGenerator) (gid5 : Bool)
    (g : Generator) :
    (mountSteps isRootless s gid5 g).calls
      = g.calls ++ ([Call.RemoveMount "/dev/shm"] ++ sysCalls isRootless s ++ devPtsCalls gid5
          ++ mqueueCalls isRootless s ++ procCalls isRootless s ++ cgroupCalls isRootless s) := by
  unfold mountSteps
  simp only []
  have hc : ∀ g1 : Generator,
      (cgroupMount (sysMount isRootless s { g.RemoveMount "/dev/shm" with HostSpecific := true }).addCgroup
        (sysMount isRootless s { g.RemoveMount "/dev/shm" with HostSpecific := true }).cgroupPerm g1).calls
        = g1.calls ++ cgroupCalls isRootless s := by
    intro g1
    unfold cgroupMount cgroupCalls
    rw [sysMount_addCgroup]
    cases hcm : canMountSys isRootless s
    · simp
    · simp [sysMount_cgroupPerm _ _ _ hcm, Generator.AddMount]
  rw [hc, procStep_calls, mqueueMount_calls, devPtsMount_calls, sysMount_calls]
  simp [Generator.RemoveMount]

theorem mountSteps_MaskedPaths (isRootless : Bool) (s : SpecGenerator) (gid5 : Bool)
    (g : Generator) :
    (mountSteps isRootless s gid5 g).MaskedPaths
      = g.MaskedPaths ++
        (if !canMountSys isRootless s && !s.Privileged && isRootless then ["/sys/kernel"]
         else []) := by
  unfold mountSteps
  simp only []
  rw [cgroupMount_MaskedPaths, procStep_MaskedPaths, mqueueMount_MaskedPaths,
    devPtsMount_MaskedPaths, sysMount_MaskedPaths]
  rfl

theorem mountSteps_mountsAt_sys (isRootless : Bool) (s : SpecGenerator) (gid5 : Bool)
    (g : Generator) :
    mountsAt "/sys" (mountSteps isRootless s gid5 g).Mounts
      = (if s.Privileged && canMountSys isRootless s then [sysfsMnt]
         else if !canMountSys isRootless s then
           [sysBindMnt (if s.Privileged then "rw" else "ro")]
         else mountsAt "/sys" g.Mounts) := by
  unfold mountSteps
  simp only []
  rw [cgroupMount_mountsAt, procStep_mountsAt _ _ _ _ (by decide),
    mqueueMount_mountsAt _ _ _ _ (by decide), devPtsMount_mountsAt _ _ _ (by decide),
    sysMount_mountsAt]
  have hs : mountsAt "/sys" ({ g.RemoveMount "/dev/shm" with HostSpecific := true } : Generator).Mounts
      = mountsAt "/sys" g.Mounts := mountsAt_RemoveMount_ne "/sys" "/dev/shm" g (by decide)
  rw [hs]
  have hd : ("/sys/fs/cgroup" == "/sys") = false := by decide
  simp [hd]

theorem sysMount_mountsAt_ne (dest : String) (isRootless : Bool) (s : SpecGenerator)
    (g : Generator) (hne : dest ≠ "/sys") :
    mountsAt dest (sysMount isRootless s g).g.Mounts = mountsAt dest g.Mounts := by
  have hd1 : (sysfsMnt.Destination == dest) = false := by
    simpa [sysfsMnt] using fun h : "/sys" = dest => hne h.symm
  have hd2 : ∀ r : String, ((sysBindMnt r).Destination == dest) = false := by
    intro r
    simpa [sysBindMnt] using fun h : "/sys" = dest => hne h.symm
  have e1 : mountsAt dest ((g.RemoveMount "/sys").AddMount sysfsMnt).Mounts
      = mountsAt dest g.Mounts := by
    rw [mountsAt_AddMount, mountsAt_RemoveMount_ne dest "/sys" g hne, hd1]
    simp
  have e2 : ∀ r : String,
      mountsAt dest ((g.RemoveMount "/sys").AddMount (sysBindMnt r)).Mounts
        = mountsAt dest g.Mounts := by
    intro r
    rw [mountsAt_AddMount, mountsAt_RemoveMount_ne dest "/sys" g hne, hd2]
    simp
  have e3 : ∀ r : String,
      mountsAt dest
          (((g.RemoveMount "/sys").AddMount (sysBindMnt r)).AddLinuxMaskedPaths
            "/sys/kernel").Mounts
        = mountsAt dest g.Mounts := fun r => e2 r
  unfold sysMount
  cases s.Privileged <;> cases canMountSys isRootless s <;> cases isRootless <;>
    simp [e1, e2, e3]

theorem mountSteps_mountsAt_cgroup (isRootless : Bool) (s : SpecGenerator) (gid5 : Bool)
    (g : Generator) :
    mountsAt "/sys/fs/cgroup" (mountSteps isRootless s gid5 g).Mounts
      = mountsAt "/sys/fs/cgroup" g.Mounts
          ++ (if canMountSys isRootless s then [cgroupMnt (if s.Privileged then "rw" else "ro")]
              else []) := by
  unfold mountSteps
  simp only []
  rw [cgroupMount_mountsAt, procStep_mountsAt _ _ _ _ (by decide),
    mqueueMount_mountsAt _ _ _ _ (by decide), devPtsMount_mountsAt _ _ _ (by decide),
    sysMount_mountsAt_ne _ _ _ _ (by decide), sysMount_addCgroup]
  have hs : mountsAt "/sys/fs/cgroup"
      ({ g.RemoveMount "/dev/shm" with HostSpecific := true } : Generator).Mounts
      = mountsAt "/sys/fs/cgroup" g.Mounts :=
    mountsAt_RemoveMount_ne "/sys/fs/cgroup" "/dev/shm" g (by decide)
  rw [hs]
  cases hcm : canMountSys isRootless s
  · simp
  · simp [sysMount_cgroupPerm _ _ _ hcm]

theorem addedAt_cgroup_planCalls (isRootless : Bool) (s : SpecGenerator) (gid5 : Bool) :
    addedAt "/sys/fs/cgroup"
        ([Call.RemoveMount "/dev/shm"] ++ sysCalls isRootless s ++ devPtsCalls gid5
          ++ mqueueCalls isRootless s ++ procCalls isRootless s ++ cgroupCalls isRootless s)
      = (if canMountSys isRootless s then [cgroupMnt (if s.Privileged then "rw" else "ro")]
         else []) := by
  have h1 : addedAt "/sys/fs/cgroup" (sysCalls isRootless s) = [] := by
    unfold sysCalls
    cases s.Privileged <;> cases canMountSys isRootless s <;> cases isRootless <;> decide
  have h2 : addedAt "/sys/fs/cgroup" (devPtsCalls gid5) = [] := by
    cases gid5 <;> decide
  have h3 : addedAt "/sys/fs/cgroup" (mqueueCalls isRootless s) = [] := by
    unfold mqueueCalls
    cases inUserNS isRootless s && s.IpcNS.IsHost <;> decide
  have h4 : addedAt "/sys/fs/cgroup" (procCalls isRootless s) = [] := by
    unfold procCalls
    cases inUserNS isRootless s && s.PidNS.IsHost <;> decide
  have h5 : addedAt "/sys/fs/cgroup" (cgroupCalls isRootless s)
      = (if canMountSys isRootless s then [cgroupMnt (if s.Privileged then "rw" else "ro")]
         else []) := by
    unfold cgroupCalls
    cases canMountSys isRootless s <;> cases s.Privileged <;> decide
  simp only [addedAt_append, h1, h2, h3, h4, h5]
  rfl

theorem masked_mem_planCalls (isRootless : Bool) (s : SpecGenerator) (gid5 : Bool) :
    Call.AddLinuxMaskedPaths "/sys/kernel"
        ∈ ([Call.RemoveMount "/dev/shm"] ++ sysCalls isRootless s ++ devPtsCalls gid5
          ++ mqueueCalls isRootless s ++ procCalls isRootless s ++ cgroupCalls isRootless s)
      ↔ (canMountSys isRootless s = false ∧ s.Privileged = false ∧ isRootless = true) := by
  unfold sysCalls devPtsCalls mqueueCalls procCalls cgroupCalls
  cases s.Privileged <;> cases canMountSys isRootless s <;> cases isRootless <;> cases gid5 <;>
    cases inUserNS _ s && s.IpcNS.IsHost <;> cases inUserNS _ s && s.PidNS.IsHost <;>
    simp

/-! ## Namespace classifier and mount plan: the claims -/

/-- C5: the flag `inUserNS` computed by `SpecGenToOCI` is true if and only if
execution is rootless or the user-namespace mode is container-shared,
path-based or private. -/
theorem inUserNS_iff (isRootless : Bool) (s : SpecGenerator) :
    inUserNS isRootless s = true ↔
      (isRootless = true ∨ s.UserNS.NSMode = NamespaceMode.FromContainer
        ∨ s.UserNS.NSMode = NamespaceMode.Path ∨ s.UserNS.NSMode = NamespaceMode.Private) := by
  unfold inUserNS
  cases isRootless <;> cases hm : s.UserNS.NSMode <;>
    simp [Namespace.IsHost, Namespace.IsContainer, Namespace.IsPath, Namespace.IsPrivate, hm]

/-- C6, counterexample: not rootless, host network namespace and a
user-namespace mode that is not host but is none of container-shared,
path-based and private either.  `canMountSys` is true, whereas
NOT((rootless OR mode is not host) AND network is host) is false. -/
theorem canMountSys_other_mode :
    otherUserSpec.UserNS.IsHost = false ∧ otherUserSpec.NetNS.IsHost = true
      ∧ canMountSys false otherUserSpec = true
      ∧ canMountSys false otherUserSpec
          ≠ !((false || !otherUserSpec.UserNS.IsHost) && otherUserSpec.NetNS.IsHost) := by
  decide

/-- C6, amended: for every rootless flag, user-namespace mode,
network-namespace mode and privileged flag, `canMountSys` equals
NOT((rootless OR the user-namespace mode is container-shared, path-based or
private) AND the network namespace is host).  It does not depend on the
privileged flag; with a container-shared, path-based or private user namespace
and a host network namespace it is false; with privileged set, not rootless,
host user namespace and host network namespace it is true. -/
theorem canMountSys_eq (isRootless : Bool) (s : SpecGenerator) :
    canMountSys isRootless s
        = !((isRootless || s.UserNS.IsContainer || s.UserNS.IsPath || s.UserNS.IsPrivate)
              && s.NetNS.IsHost)
      ∧ (∀ p : Bool, canMountSys isRootless { s with Privileged := p } = canMountSys isRootless s)
      ∧ ((s.UserNS.IsContainer || s.UserNS.IsPath || s.UserNS.IsPrivate) = true →
          s.NetNS.IsHost = true → canMountSys isRootless s = false)
      ∧ (s.Privileged = true → isRootless = false → s.UserNS.IsHost = true →
          s.NetNS.IsHost = true → canMountSys isRootless s = true) := by
  refine ⟨?_, ?_, ?_, ?_⟩
  · unfold canMountSys inUserNS
    cases isRootless <;> cases hm : s.UserNS.NSMode <;> cases s.NetNS.IsHost <;>
      simp [Namespace.IsHost, Namespace.IsContainer, Namespace.IsPath, Namespace.IsPrivate, hm]
  · intro p
    rfl
  · intro h1 h2
    unfold canMountSys inUserNS
    cases isRootless <;> cases hm : s.UserNS.NSMode <;>
      simp_all [Namespace.IsHost, Namespace.IsContainer, Namespace.IsPath, Namespace.IsPrivate]
  · intro _ h1 h2 _
    unfold canMountSys inUserNS
    simp [h1, h2]

/-- C7: whenever the mount plan of `SpecGenToOCI` completes, starting from the
builder `g0`, the entries at `/sys` of the builder it leaves are: if privileged
and `canMountSys`, the single entry of type sysfs, source sysfs, options
rprivate,nosuid,noexec,nodev,rw; if not `canMountSys`, privileged or not, the
single entry of type bind, source /sys, options
rprivate,nosuid,noexec,nodev,P,rbind with P = rw when privileged and ro
otherwise; if unprivileged and `canMountSys`, the `/sys` entries of `g0`,
unchanged. -/
theorem mountPlan_sys (isRootless : Bool) (g0 g1 : Generator)
    (parseIDMapFile : Except Error (List UserIDMap)) (s : SpecGenerator)
    (h : mountPlan isRootless (Except.ok g0) parseIDMapFile s = Except.ok g1) :
    (s.Privileged = true → canMountSys isRootless s = true →
        mountsAt "/sys" g1.Mounts
          = [{ Destination := "/sys", Typ := "sysfs", Source := "sysfs",
               Options := ["rprivate", "nosuid", "noexec", "nodev", "rw"] }])
      ∧ (canMountSys isRootless s = false →
        mountsAt "/sys" g1.Mounts
          = [{ Destination := "/sys", Typ := "bind", Source := "/sys",
               Options := ["rprivate", "nosuid", "noexec", "nodev",
                 if s.Privileged then "rw" else "ro", "rbind"] }])
      ∧ (s.Privileged = false → canMountSys isRootless s = true →
        mountsAt "/sys" g1.Mounts = mountsAt "/sys" g0.Mounts) := by
  obtain ⟨gid5, -, rfl⟩ := mountPlan_ok isRootless g0 g1 parseIDMapFile s h
  rw [mountSteps_mountsAt_sys]
  refine ⟨?_, ?_, ?_⟩
  · intro hp hc
    simp [hp, hc, sysfsMnt]
  · intro hc
    simp [hc, sysBindMnt]
  · intro hp hc
    simp [hp, hc]

/-- Witness for C7: not rootless, privileged, every namespace shared with the
host, a freshly created builder. -/
theorem mountPlan_sys_witness :
    ∃ g1, mountPlan false (Except.ok freshBuilder) (Except.ok fiveGids)
          { hostSpec with Privileged := true } = Except.ok g1
      ∧ ((({ hostSpec with Privileged := true } : SpecGenerator).Privileged = true →
          canMountSys false { hostSpec with Privileged := true } = true →
          mountsAt "/sys" g1.Mounts
            = [{ Destination := "/sys", Typ := "sysfs", Source := "sysfs",
                 Options := ["rprivate", "nosuid", "noexec", "nodev", "rw"] }])
        ∧ (canMountSys false { hostSpec with Privileged := true } = false →
          mountsAt "/sys" g1.Mounts
            = [{ Destination := "/sys", Typ := "bind", Source := "/sys",
                 Options := ["rprivate", "nosuid", "noexec", "nodev",
                   if ({ hostSpec with Privileged := true } : SpecGenerator).Privileged
                   then "rw" else "ro", "rbind"] }])
        ∧ (({ hostSpec with Privileged := true } : SpecGenerator).Privileged = false →
          canMountSys false { hostSpec with Privileged := true } = true →
          mountsAt "/sys" g1.Mounts = mountsAt "/sys" freshBuilder.Mounts)) :=
  ⟨mountSteps false { hostSpec with Privileged := true } true freshBuilder, rfl,
    mountPlan_sys false freshBuilder _ (Except.ok fiveGids) { hostSpec with Privileged := true }
      rfl⟩

/-- C8: whenever the mount plan of `SpecGenToOCI` completes, starting from the
builder `g0`, the `AddMount` calls it issued for `/sys/fs/cgroup` are: exactly
one when `canMountSys` is true, with the entry of type cgroup, source cgroup,
options rprivate,nosuid,noexec,nodev,relatime,P where P = rw if privileged and
ro otherwise; none when `canMountSys` is false.  The `/sys/fs/cgroup` entries
of the builder it leaves are those of `g0` followed by that entry, if any. -/
theorem mountPlan_cgroup (isRootless : Bool) (g0 g1 : Generator)
    (parseIDMapFile : Except Error (List UserIDMap)) (s : SpecGenerator)
    (h : mountPlan isRootless (Except.ok g0) parseIDMapFile s = Except.ok g1) :
    addedAt "/sys/fs/cgroup" (issued g0 g1)
        = (if canMountSys isRootless s then
            [{ Destination := "/sys/fs/cgroup", Typ := "cgroup", Source := "cgroup",
               Options := ["rprivate", "nosuid", "noexec", "nodev", "relatime",
                 if s.Privileged then "rw" else "ro"] }]
           else [])
      ∧ mountsAt "/sys/fs/cgroup" g1.Mounts
        = mountsAt "/sys/fs/cgroup" g0.Mounts
          ++ (if canMountSys isRootless s then
                [{ Destination := "/sys/fs/cgroup", Typ := "cgroup", Source := "cgroup",
                   Options := ["rprivate", "nosuid", "noexec", "nodev", "relatime",
                     if s.Privileged then "rw" else "ro"] }]
              else []) := by
  obtain ⟨gid5, -, rfl⟩ := mountPlan_ok isRootless g0 g1 parseIDMapFile s h
  constructor
  · rw [issued_of_calls g0 _ _ (mountSteps_calls isRootless s gid5 g0),
      addedAt_cgroup_planCalls]
    rfl
  · rw [mountSteps_mountsAt_cgroup]
    rfl

/-- Witness for C8: not rootless, privileged, every namespace shared with the
host, a freshly created builder. -/
theorem mountPlan_cgroup_witness :
    ∃ g1, mountPlan false (Except.ok freshBuilder) (Except.ok fiveGids)
          { hostSpec with Privileged := true } = Except.ok g1
      ∧ (addedAt "/sys/fs/cgroup" (issued freshBuilder g1)
            = (if canMountSys false { hostSpec with Privileged := true } then
                [{ Destination := "/sys/fs/cgroup", Typ := "cgroup", Source := "cgroup",
                   Options := ["rprivate", "nosuid", "noexec", "nodev", "relatime",
                     if ({ hostSpec with Privileged := true } : SpecGenerator).Privileged
                     then "rw" else "ro"] }]
               else [])
          ∧ mountsAt "/sys/fs/cgroup" g1.Mounts
            = mountsAt "/sys/fs/cgroup" freshBuilder.Mounts
              ++ (if canMountSys false { hostSpec with Privileged := true } then
                    [{ Destination := "/sys/fs/cgroup", Typ := "cgroup", Source := "cgroup",
                       Options := ["rprivate", "nosuid", "noexec", "nodev", "relatime",
                         if ({ hostSpec with Privileged := true } : SpecGenerator).Privileged
                         then "rw" else "ro"] }]
                  else [])) :=
  ⟨mountSteps false { hostSpec with Privileged := true } true freshBuilder, rfl,
    mountPlan_cgroup false freshBuilder _ (Except.ok fiveGids)
      { hostSpec with Privileged := true } rfl⟩

/-- C9: whenever the mount plan of `SpecGenToOCI` completes, starting from the
builder `g0`, it issued `AddLinuxMaskedPaths("/sys/kernel")` if and only if
`canMountSys` is false, the container is unprivileged and execution is
rootless, and the masked paths of the builder it leaves are those of `g0`,
followed by `/sys/kernel` in that case.  In particular for rootless execution,
private user namespace, host network namespace and an unprivileged container,
`/sys` is the bind mount with `ro` and `/sys/kernel` is masked. -/
theorem mountPlan_masked (isRootless : Bool) (g0 g1 : Generator)
    (parseIDMapFile : Except Error (List UserIDMap)) (s : SpecGenerator)
    (h : mountPlan isRootless (Except.ok g0) parseIDMapFile s = Except.ok g1) :
    (Call.AddLinuxMaskedPaths "/sys/kernel" ∈ issued g0 g1
        ↔ (canMountSys isRootless s = false ∧ s.Privileged = false ∧ isRootless = true))
      ∧ g1.MaskedPaths
        = g0.MaskedPaths
          ++ (if !canMountSys isRootless s && !s.Privileged && isRootless then ["/sys/kernel"]
              else [])
      ∧ (isRootless = true → s.UserNS.NSMode = NamespaceMode.Private →
          s.NetNS.NSMode = NamespaceMode.Host → s.Privileged = false →
          mountsAt "/sys" g1.Mounts
              = [{ Destination := "/sys", Typ := "bind", Source := "/sys",
                   Options := ["rprivate", "nosuid", "noexec", "nodev", "ro", "rbind"] }]
            ∧ "/sys/kernel" ∈ g1.MaskedPaths) := by
  obtain ⟨gid5, -, rfl⟩ := mountPlan_ok isRootless g0 g1 parseIDMapFile s h
  refine ⟨?_, mountSteps_MaskedPaths isRootless s gid5 g0, ?_⟩
  · rw [issued_of_calls g0 _ _ (mountSteps_calls isRootless s gid5 g0)]
    exact masked_mem_planCalls isRootless s gid5
  · intro hr _ hn hp
    subst hr
    have hc : canMountSys true s = false := by
      unfold canMountSys inUserNS
      simp [hn, Namespace.IsHost]
    rw [mountSteps_mountsAt_sys, mountSteps_MaskedPaths]
    simp [hc, hp, sysBindMnt]

/-- Witness for C9: rootless, unprivileged, private user namespace, host network
namespace, a freshly created builder. -/
theorem mountPlan_masked_witness :
    ∃ g1, mountPlan true (Except.ok freshBuilder) (Except.ok fiveGids)
          { hostSpec with UserNS := { NSMode := NamespaceMode.Private } } = Except.ok g1
      ∧ ((Call.AddLinuxMaskedPaths "/sys/kernel" ∈ issued freshBuilder g1
            ↔ (canMountSys true { hostSpec with UserNS := { NSMode := NamespaceMode.Private } }
                  = false
                ∧ ({ hostSpec with UserNS := { NSMode := NamespaceMode.Private } } :
                    SpecGenerator).Privileged = false
                ∧ true = true))
          ∧ g1.MaskedPaths
            = freshBuilder.MaskedPaths
              ++ (if !canMountSys true
                        { hostSpec with UserNS := { NSMode := NamespaceMode.Private } }
                      && !({ hostSpec with UserNS := { NSMode := NamespaceMode.Private } } :
                            SpecGenerator).Privileged
                      && true then ["/sys/kernel"]
                  else [])
          ∧ (true = true →
              ({ hostSpec with UserNS := { NSMode := NamespaceMode.Private } } :
                  SpecGenerator).UserNS.NSMode = NamespaceMode.Private →
              ({ hostSpec with UserNS := { NSMode := NamespaceMode.Private } } :
                  SpecGenerator).NetNS.NSMode = NamespaceMode.Host →
              ({ hostSpec with UserNS := { NSMode := NamespaceMode.Private } } :
                  SpecGenerator).Privileged = false →
              mountsAt "/sys" g1.Mounts
                  = [{ Destination := "/sys", Typ := "bind", Source := "/sys",
                       Options := ["rprivate", "nosuid", "noexec", "nodev", "ro", "rbind"] }]
                ∧ "/sys/kernel" ∈ g1.MaskedPaths)) :=
  ⟨mountSteps true { hostSpec with UserNS := { NSMode := NamespaceMode.Private } } true
      freshBuilder, rfl,
    mountPlan_masked true freshBuilder _ (Except.ok fiveGids)
      { hostSpec with UserNS := { NSMode := NamespaceMode.Private } } rfl⟩

/-- C10, the code at the failing input: rootless execution, process GID map
`0 1000 1` / `1 100000 4` (container GIDs 0 to 4, so no range holds GID 5 and
the counts add up to 5), no declared ID mappings, builder as freshly created.
The probe counts 5 GIDs, `gid5Available` stays true, the mount plan completes
and the `/dev/pts` entry is still the default of the builder, with `gid=5`. -/
theorem mountPlan_five_gids :
    (∀ r ∈ fiveGids, ¬ (r.ID ≤ 5 ∧ 5 < r.ID + r.Count))
      ∧ GetAvailableGids (Except.ok fiveGids) = Except.ok 5
      ∧ hostSpec.IDMappings = none
      ∧ gid5Available true (Except.ok fiveGids) hostSpec = Except.ok true
      ∧ ∃ g1, mountPlan true (Except.ok freshBuilder) (Except.ok fiveGids) hostSpec
            = Except.ok g1
          ∧ mountsAt "/dev/pts" g1.Mounts
            = [{ Destination := "/dev/pts", Typ := "devpts", Source := "devpts",
                 Options := ["nosuid", "noexec", "newinstance", "ptmxmode=0666",
                   "mode=0620", "gid=5"] }]
          ∧ Call.RemoveMount "/dev/pts" ∉ issued freshBuilder g1 := by
  refine ⟨by decide, rfl, rfl, rfl, ?_⟩
  exact ⟨mountSteps true hostSpec true freshBuilder, rfl, by decide, by decide⟩

/-! ## Mount plan, further auxiliary facts -/

theorem mappingFound_false_iff (l : List IDMap) :
    mappingFound l = false
      ↔ ∀ r ∈ l, ¬ (r.ContainerID ≤ 5 ∧ 5 < wrapInt64 (r.ContainerID + r.Size)) := by
  unfold mappingFound
  rw [List.any_eq_false]
  constructor
  · intro h r hr hc
    exact h r hr (by simp [hc.1, hc.2])
  · intro h r hr hc
    simp only [Bool.and_eq_true, decide_eq_true_eq] at hc
    exact h r hr hc

theorem gid5Available_rootful (parseIDMapFile : Except Error (List UserIDMap))
    (s : SpecGenerator) :
    gid5Available false parseIDMapFile s
      = Except.ok (match s.IDMappings with
          | none => true
          | some m => !(decide (m.GIDMap.length > 0) && !mappingFound m.GIDMap)) := by
  unfold gid5Available
  cases hm : s.IDMappings with
  | none => simp
  | some m =>
    cases hl : decide (m.GIDMap.length > 0) <;> cases hf : mappingFound m.GIDMap <;>
      simp [hl, hf]

theorem mountSteps_planCalls (isRootless : Bool) (s : SpecGenerator) (gid5 : Bool)
    (g : Generator) :
    issued g (mountSteps isRootless s gid5 g) = planCalls isRootless s gid5 :=
  issued_of_calls g _ _ (mountSteps_calls isRootless s gid5 g)

theorem removeDevPts_mem_planCalls (isRootless : Bool) (s : SpecGenerator) (gid5 : Bool) :
    Call.RemoveMount "/dev/pts" ∈ planCalls isRootless s gid5 ↔ gid5 = false := by
  unfold planCalls sysCalls devPtsCalls mqueueCalls procCalls cgroupCalls
  cases s.Privileged <;> cases canMountSys isRootless s <;> cases isRootless <;> cases gid5 <;>
    cases inUserNS _ s && s.IpcNS.IsHost <;> cases inUserNS _ s && s.PidNS.IsHost <;>
    simp

theorem addedAt_devPts_planCalls (isRootless : Bool) (s : SpecGenerator) (gid5 : Bool) :
    addedAt "/dev/pts" (planCalls isRootless s gid5) = (if gid5 then [] else [devPts]) := by
  have h1 : addedAt "/dev/pts" (sysCalls isRootless s) = [] := by
    unfold sysCalls
    cases s.Privileged <;> cases canMountSys isRootless s <;> cases isRootless <;> decide
  have h2 : addedAt "/dev/pts" (devPtsCalls gid5) = (if gid5 then [] else [devPts]) := by
    cases gid5 <;> decide
  have h3 : addedAt "/dev/pts" (mqueueCalls isRootless s) = [] := by
    unfold mqueueCalls
    cases inUserNS isRootless s && s.IpcNS.IsHost <;> decide
  have h4 : addedAt "/dev/pts" (procCalls isRootless s) = [] := by
    unfold procCalls
    cases inUserNS isRootless s && s.PidNS.IsHost <;> decide
  have h5 : addedAt "/dev/pts" (cgroupCalls isRootless s) = [] := by
    unfold cgroupCalls
    cases canMountSys isRootless s <;> cases s.Privileged <;> decide
  unfold planCalls
  simp only [addedAt_append, h1, h2, h3, h4, h5]
  cases gid5 <;> rfl

theorem devPtsMount_mountsAt_self (gid5 : Bool) (g : Generator) :
    mountsAt "/dev/pts" (devPtsMount gid5 g).Mounts
      = (if gid5 then mountsAt "/dev/pts" g.Mounts else [devPts]) := by
  unfold devPtsMount
  cases gid5
  · simp only [Bool.not_false, if_true]
    rw [mountsAt_AddMount, mountsAt_RemoveMount_self]
    rfl
  · rfl

theorem mountSteps_mountsAt_devPts (isRootless : Bool) (s : SpecGenerator) (gid5 : Bool)
    (g : Generator) :
    mountsAt "/dev/pts" (mountSteps isRootless s gid5 g).Mounts
      = (if gid5 then mountsAt "/dev/pts" g.Mounts else [devPts]) := by
  unfold mountSteps
  simp only []
  rw [cgroupMount_mountsAt, procStep_mountsAt _ _ _ _ (by decide),
    mqueueMount_mountsAt _ _ _ _ (by decide), devPtsMount_mountsAt_self,
    sysMount_mountsAt_ne _ _ _ _ (by decide)]
  have hs : mountsAt "/dev/pts"
      ({ g.RemoveMount "/dev/shm" with HostSpecific := true } : Generator).Mounts
      = mountsAt "/dev/pts" g.Mounts :=
    mountsAt_RemoveMount_ne "/dev/pts" "/dev/shm" g (by decide)
  rw [hs]
  have hd : ("/sys/fs/cgroup" == "/dev/pts") = false := by decide
  simp [hd]

/-! ## Mount plan: further claims -/

/-- C11, counterexample: not rootless, private user namespace, declared GID map
of the one range of container GIDs 0 to 4, builder as freshly created.
`gid5Available` becomes false and the mount plan removes the default
`/dev/pts` mount and puts the explicit devpts entry in its place. -/
theorem gid5_unavailable_rootful :
    mappedSpec.IDMappings
        = some { GIDMap := [{ ContainerID := 0, HostID := 100000, Size := 5 }] }
      ∧ gid5Available false (Except.ok fiveGids) mappedSpec = Except.ok false
      ∧ ∃ g1, mountPlan false (Except.ok freshBuilder) (Except.ok fiveGids) mappedSpec
            = Except.ok g1
          ∧ Call.RemoveMount "/dev/pts" ∈ issued freshBuilder g1
          ∧ mountsAt "/dev/pts" g1.Mounts
            = [{ Destination := "/dev/pts", Typ := "devpts", Source := "devpts",
                 Options := ["rprivate", "nosuid", "noexec", "newinstance",
                   "ptmxmode=0666", "mode=0620"] }] := by
  refine ⟨rfl, rfl, mountSteps false mappedSpec false freshBuilder, rfl, ?_, ?_⟩
  · decide
  · decide

/-- C11, amended: for every translation with rootless=false the probe of the
process GID map is not made, the mount plan completes, and `gid5Available` is
false exactly when the declared GID map is non-empty and none of its ranges
holds container GID 5 (`ContainerID <= 5 < ContainerID+Size`, the sum in `int`
arithmetic).  When `gid5Available` stays true, so when the ID mappings are nil,
the declared GID map is empty or some declared range holds GID 5, the `/dev/pts`
entries of the builder are neither removed nor replaced. -/
theorem gid5_rootful (g0 : Generator) (parseIDMapFile : Except Error (List UserIDMap))
    (s : SpecGenerator) :
    ∃ b g1, gid5Available false parseIDMapFile s = Except.ok b
      ∧ mountPlan false (Except.ok g0) parseIDMapFile s = Except.ok g1
      ∧ (b = false ↔ ∃ m, s.IDMappings = some m ∧ m.GIDMap ≠ []
            ∧ ∀ r ∈ m.GIDMap, ¬ (r.ContainerID ≤ 5 ∧ 5 < wrapInt64 (r.ContainerID + r.Size)))
      ∧ (b = true →
          Call.RemoveMount "/dev/pts" ∉ issued g0 g1
            ∧ addedAt "/dev/pts" (issued g0 g1) = []
            ∧ mountsAt "/dev/pts" g1.Mounts = mountsAt "/dev/pts" g0.Mounts) := by
  have hb := gid5Available_rootful parseIDMapFile s
  refine ⟨_, mountSteps false s _ g0, hb, mountPlan_of_probe false g0 parseIDMapFile s _ hb,
    ?_, ?_⟩
  · cases hm : s.IDMappings with
    | none => simp
    | some m =>
      simp only [Bool.not_eq_false', Bool.and_eq_true, decide_eq_true_eq, Bool.not_eq_true',
        Option.some.injEq, exists_eq_left']
      rw [mappingFound_false_iff]
      constructor
      · rintro ⟨h1, h2⟩
        exact ⟨fun h => by simp [h] at h1, h2⟩
      · rintro ⟨h1, h2⟩
        exact ⟨List.length_pos.mpr h1, h2⟩
  · intro hb1
    rw [mountSteps_planCalls, hb1]
    refine ⟨?_, ?_, ?_⟩
    · rw [removeDevPts_mem_planCalls]
      simp
    · rw [addedAt_devPts_planCalls]
      rfl
    · rw [mountSteps_mountsAt_devPts]
      rfl

theorem removeMqueue_mem_planCalls (isRootless : Bool) (s : SpecGenerator) (gid5 : Bool) :
    Call.RemoveMount "/dev/mqueue" ∈ planCalls isRootless s gid5
      ↔ (inUserNS isRootless s && s.IpcNS.IsHost) = true := by
  unfold planCalls sysCalls devPtsCalls mqueueCalls procCalls cgroupCalls
  cases s.Privileged <;> cases canMountSys isRootless s <;> cases isRootless <;> cases gid5 <;>
    cases inUserNS _ s && s.IpcNS.IsHost <;> cases inUserNS _ s && s.PidNS.IsHost <;>
    simp

theorem removeProc_mem_planCalls (isRootless : Bool) (s : SpecGenerator) (gid5 : Bool) :
    Call.RemoveMount "/proc" ∈ planCalls isRootless s gid5
      ↔ (inUserNS isRootless s && s.PidNS.IsHost) = true := by
  unfold planCalls sysCalls devPtsCalls mqueueCalls procCalls cgroupCalls
  cases s.Privileged <;> cases canMountSys isRootless s <;> cases isRootless <;> cases gid5 <;>
    cases inUserNS _ s && s.IpcNS.IsHost <;> cases inUserNS _ s && s.PidNS.IsHost <;>
    simp

theorem addedAt_mqueue_planCalls (isRootless : Bool) (s : SpecGenerator) (gid5 : Bool) :
    addedAt "/dev/mqueue" (planCalls isRootless s gid5)
      = (if inUserNS isRootless s && s.IpcNS.IsHost then [devMqueue] else []) := by
  have h1 : addedAt "/dev/mqueue" (sysCalls isRootless s) = [] := by
    unfold sysCalls
    cases s.Privileged <;> cases canMountSys isRootless s <;> cases isRootless <;> decide
  have h2 : addedAt "/dev/mqueue" (devPtsCalls gid5) = [] := by
    cases gid5 <;> decide
  have h3 : addedAt "/dev/mqueue" (mqueueCalls isRootless s)
      = (if inUserNS isRootless s && s.IpcNS.IsHost then [devMqueue] else []) := by
    unfold mqueueCalls
    cases inUserNS isRootless s && s.IpcNS.IsHost <;> decide
  have h4 : addedAt "/dev/mqueue" (procCalls isRootless s) = [] := by
    unfold procCalls
    cases inUserNS isRootless s && s.PidNS.IsHost <;> decide
  have h5 : addedAt "/dev/mqueue" (cgroupCalls isRootless s) = [] := by
    unfold cgroupCalls
    cases canMountSys isRootless s <;> cases s.Privileged <;> decide
  unfold planCalls
  simp only [addedAt_append, h1, h2, h3, h4, h5]
  cases inUserNS isRootless s && s.IpcNS.IsHost <;> rfl

theorem addedAt_proc_planCalls (isRootless : Bool) (s : SpecGenerator) (gid5 : Bool) :
    addedAt "/proc" (planCalls isRootless s gid5)
      = (if inUserNS isRootless s && s.PidNS.IsHost then [procMount] else []) := by
  have h1 : addedAt "/proc" (sysCalls isRootless s) = [] := by
    unfold sysCalls
    cases s.Privileged <;> cases canMountSys isRootless s <;> cases isRootless <;> decide
  have h2 : addedAt "/proc" (devPtsCalls gid5) = [] := by
    cases gid5 <;> decide
  have h3 : addedAt "/proc" (mqueueCalls isRootless s) = [] := by
    unfold mqueueCalls
    cases inUserNS isRootless s && s.IpcNS.IsHost <;> decide
  have h4 : addedAt "/proc" (procCalls isRootless s)
      = (if inUserNS isRootless s && s.PidNS.IsHost then [procMount] else []) := by
    unfold procCalls
    cases inUserNS isRootless s && s.PidNS.IsHost <;> decide
  have h5 : addedAt "/proc" (cgroupCalls isRootless s) = [] := by
    unfold cgroupCalls
    cases canMountSys isRootless s <;> cases s.Privileged <;> decide
  unfold planCalls
  simp only [addedAt_append, h1, h2, h3, h4, h5]
  cases inUserNS isRootless s && s.PidNS.IsHost <;> rfl

theorem mqueueMount_mountsAt_self (isRootless : Bool) (s : SpecGenerator) (g : Generator) :
    mountsAt "/dev/mqueue" (mqueueMount isRootless s g).Mounts
      = (if inUserNS isRootless s && s.IpcNS.IsHost then [devMqueue]
         else mountsAt "/dev/mqueue" g.Mounts) := by
  unfold mqueueMount
  cases inUserNS isRootless s && s.IpcNS.IsHost
  · rfl
  · simp only [if_true]
    rw [mountsAt_AddMount, mountsAt_RemoveMount_self]
    rfl

theorem procStep_mountsAt_self (isRootless : Bool) (s : SpecGenerator) (g : Generator) :
    mountsAt "/proc" (procStep isRootless s g).Mounts
      = (if inUserNS isRootless s && s.PidNS.IsHost then [procMount]
         else mountsAt "/proc" g.Mounts) := by
  unfold procStep
  cases inUserNS isRootless s && s.PidNS.IsHost
  · rfl
  · simp only [if_true]
    rw [mountsAt_AddMount, mountsAt_RemoveMount_self]
    rfl

theorem mountSteps_mountsAt_mqueue (isRootless : Bool) (s : SpecGenerator) (gid5 : Bool)
    (g : Generator) :
    mountsAt "/dev/mqueue" (mountSteps isRootless s gid5 g).Mounts
      = (if inUserNS isRootless s && s.IpcNS.IsHost then [devMqueue]
         else mountsAt "/dev/mqueue" g.Mounts) := by
  unfold mountSteps
  simp only []
  rw [cgroupMount_mountsAt, procStep_mountsAt _ _ _ _ (by decide),
    mqueueMount_mountsAt_self, devPtsMount_mountsAt _ _ _ (by decide),
    sysMount_mountsAt_ne _ _ _ _ (by decide)]
  have hs : mountsAt "/dev/mqueue"
      ({ g.RemoveMount "/dev/shm" with HostSpecific := true } : Generator).Mounts
      = mountsAt "/dev/mqueue" g.Mounts :=
    mountsAt_RemoveMount_ne "/dev/mqueue" "/dev/shm" g (by decide)
  rw [hs]
  have hd : ("/sys/fs/cgroup" == "/dev/mqueue") = false := by decide
  simp [hd]

theorem mountSteps_mountsAt_proc (isRootless : Bool) (s : SpecGenerator) (gid5 : Bool)
    (g : Generator) :
    mountsAt "/proc" (mountSteps isRootless s gid5 g).Mounts
      = (if inUserNS isRootless s && s.PidNS.IsHost then [procMount]
         else mountsAt "/proc" g.Mounts) := by
  unfold mountSteps
  simp only []
  rw [cgroupMount_mountsAt, procStep_mountsAt_self,
    mqueueMount_mountsAt _ _ _ _ (by decide), devPtsMount_mountsAt _ _ _ (by decide),
    sysMount_mountsAt_ne _ _ _ _ (by decide)]
  have hs : mountsAt "/proc"
      ({ g.RemoveMount "/dev/shm" with HostSpecific := true } : Generator).Mounts
      = mountsAt "/proc" g.Mounts :=
    mountsAt_RemoveMount_ne "/proc" "/dev/shm" g (by decide)
  rw [hs]
  have hd : ("/sys/fs/cgroup" == "/proc") = false := by decide
  simp [hd]

/-- C12: whenever the mount plan of `SpecGenToOCI` completes, starting from the
builder `g0`: `/dev/mqueue` is removed and added again as the entry of type
bind, source /dev/mqueue, options bind,nosuid,noexec,nodev if and only if
`inUserNS` is true and the IPC-namespace mode is host, and `/proc` is removed
and added again as the entry of type bind, source /proc, options
rbind,nosuid,noexec,nodev if and only if `inUserNS` is true and the
PID-namespace mode is host; otherwise no operation names that destination and
the entries of `g0` there are left as they were. -/
theorem mountPlan_mqueue_proc (isRootless : Bool) (g0 g1 : Generator)
    (parseIDMapFile : Except Error (List UserIDMap)) (s : SpecGenerator)
    (h : mountPlan isRootless (Except.ok g0) parseIDMapFile s = Except.ok g1) :
    (Call.RemoveMount "/dev/mqueue" ∈ issued g0 g1
        ↔ (inUserNS isRootless s = true ∧ s.IpcNS.IsHost = true))
      ∧ addedAt "/dev/mqueue" (issued g0 g1)
        = (if inUserNS isRootless s && s.IpcNS.IsHost then
            [{ Destination := "/dev/mqueue", Typ := "bind", Source := "/dev/mqueue",
               Options := ["bind", "nosuid", "noexec", "nodev"] }]
           else [])
      ∧ mountsAt "/dev/mqueue" g1.Mounts
        = (if inUserNS isRootless s && s.IpcNS.IsHost then
            [{ Destination := "/dev/mqueue", Typ := "bind", Source := "/dev/mqueue",
               Options := ["bind", "nosuid", "noexec", "nodev"] }]
           else mountsAt "/dev/mqueue" g0.Mounts)
      ∧ (Call.RemoveMount "/proc" ∈ issued g0 g1
        ↔ (inUserNS isRootless s = true ∧ s.PidNS.IsHost = true))
      ∧ addedAt "/proc" (issued g0 g1)
        = (if inUserNS isRootless s && s.PidNS.IsHost then
            [{ Destination := "/proc", Typ := "bind", Source := "/proc",
               Options := ["rbind", "nosuid", "noexec", "nodev"] }]
           else [])
      ∧ mountsAt "/proc" g1.Mounts
        = (if inUserNS isRootless s && s.PidNS.IsHost then
            [{ Destination := "/proc", Typ := "bind", Source := "/proc",
               Options := ["rbind", "nosuid", "noexec", "nodev"] }]
           else mountsAt "/proc" g0.Mounts) := by
  obtain ⟨gid5, -, rfl⟩ := mountPlan_ok isRootless g0 g1 parseIDMapFile s h
  rw [mountSteps_planCalls]
  refine ⟨?_, ?_, ?_, ?_, ?_, ?_⟩
  · rw [removeMqueue_mem_planCalls, Bool.and_eq_true]
  · rw [addedAt_mqueue_planCalls]
    rfl
  · rw [mountSteps_mountsAt_mqueue]
    rfl
  · rw [removeProc_mem_planCalls, Bool.and_eq_true]
  · rw [addedAt_proc_planCalls]
    rfl
  · rw [mountSteps_mountsAt_proc]
    rfl

/-- Witness for C12: rootless, every namespace shared with the host, a freshly
created builder. -/
theorem mountPlan_mqueue_proc_witness :
    ∃ g1, mountPlan true (Except.ok freshBuilder) (Except.ok fiveGids) hostSpec = Except.ok g1
      ∧ ((Call.RemoveMount "/dev/mqueue" ∈ issued freshBuilder g1
            ↔ (inUserNS true hostSpec = true ∧ hostSpec.IpcNS.IsHost = true))
          ∧ addedAt "/dev/mqueue" (issued freshBuilder g1)
            = (if inUserNS true hostSpec && hostSpec.IpcNS.IsHost then
                [{ Destination := "/dev/mqueue", Typ := "bind", Source := "/dev/mqueue",
                   Options := ["bind", "nosuid", "noexec", "nodev"] }]
               else [])
          ∧ mountsAt "/dev/mqueue" g1.Mounts
            = (if inUserNS true hostSpec && hostSpec.IpcNS.IsHost then
                [{ Destination := "/dev/mqueue", Typ := "bind", Source := "/dev/mqueue",
                   Options := ["bind", "nosuid", "noexec", "nodev"] }]
               else mountsAt "/dev/mqueue" freshBuilder.Mounts)
          ∧ (Call.RemoveMount "/proc" ∈ issued freshBuilder g1
            ↔ (inUserNS true hostSpec = true ∧ hostSpec.PidNS.IsHost = true))
          ∧ addedAt "/proc" (issued freshBuilder g1)
            = (if inUserNS true hostSpec && hostSpec.PidNS.IsHost then
                [{ Destination := "/proc", Typ := "bind", Source := "/proc",
                   Options := ["rbind", "nosuid", "noexec", "nodev"] }]
               else [])
          ∧ mountsAt "/proc" g1.Mounts
            = (if inUserNS true hostSpec && hostSpec.PidNS.IsHost then
                [{ Destination := "/proc", Typ := "bind", Source := "/proc",
                   Options := ["rbind", "nosuid", "noexec", "nodev"] }]
               else mountsAt "/proc" freshBuilder.Mounts)) :=
  ⟨mountSteps true hostSpec true freshBuilder, rfl,
    mountPlan_mqueue_proc true freshBuilder _ (Except.ok fiveGids) hostSpec rfl⟩

theorem wrapInt64_of_range (x : Int) (h1 : -2 ^ 63 ≤ x) (h2 : x < 2 ^ 63) :
    wrapInt64 x = x := by
  unfold wrapInt64
  have h3 : (x + 2 ^ 63) % 2 ^ 64 = x + 2 ^ 63 :=
    Int.emod_eq_of_lt (by omega) (by omega)
  omega

theorem sumCounts_foldl (idMap : List UserIDMap) (acc : Int) (hacc : 0 ≤ acc)
    (hpos : ∀ r ∈ idMap, 0 ≤ r.Count)
    (hsum : acc + (idMap.map (fun r => r.Count)).sum < 2 ^ 63) :
    idMap.foldl (fun count r => wrapInt64 (count + r.Count)) acc
      = acc + (idMap.map (fun r => r.Count)).sum := by
  induction idMap generalizing acc with
  | nil => simp
  | cons r rs ih =>
    have hr : 0 ≤ r.Count := hpos r (List.mem_cons_self r rs)
    have hrs : ∀ x ∈ rs, 0 ≤ x.Count := fun x hx => hpos x (List.mem_cons_of_mem r hx)
    have hnn : 0 ≤ (rs.map (fun r => r.Count)).sum := by
      apply List.sum_nonneg
      intro x hx
      obtain ⟨y, hy, rfl⟩ := List.mem_map.mp hx
      exact hrs y hy
    simp only [List.map_cons, List.sum_cons] at hsum
    have hw : wrapInt64 (acc + r.Count) = acc + r.Count :=
      wrapInt64_of_range _ (by omega) (by omega)
    simp only [List.foldl_cons, hw, List.map_cons, List.sum_cons]
    rw [ih (acc + r.Count) (by omega) hrs (by omega)]
    omega

theorem GetAvailableGids_sum (idMap : List UserIDMap) (hpos : ∀ r ∈ idMap, 0 ≤ r.Count)
    (hsum : (idMap.map (fun r => r.Count)).sum < 2 ^ 63) :
    GetAvailableGids (Except.ok idMap) = Except.ok (idMap.map (fun r => r.Count)).sum := by
  unfold GetAvailableGids
  simp only []
  rw [sumCounts_foldl idMap 0 (le_refl 0) hpos (by omega)]
  simp

theorem gid5Available_false_iff (isRootless : Bool)
    (parseIDMapFile : Except Error (List UserIDMap)) (s : SpecGenerator) (b : Bool)
    (h : gid5Available isRootless parseIDMapFile s = Except.ok b) :
    b = false ↔
      ((isRootless = true ∧ ∃ n, GetAvailableGids parseIDMapFile = Except.ok n ∧ n < 5)
        ∨ ∃ m, s.IDMappings = some m ∧ m.GIDMap ≠ []
            ∧ ∀ r ∈ m.GIDMap, ¬ (r.ContainerID ≤ 5 ∧ 5 < wrapInt64 (r.ContainerID + r.Size))) := by
  have key : ∀ m : IDMappingOptions,
      ((decide (m.GIDMap.length > 0) && !mappingFound m.GIDMap) = true)
        ↔ (m.GIDMap ≠ []
            ∧ ∀ r ∈ m.GIDMap, ¬ (r.ContainerID ≤ 5 ∧ 5 < wrapInt64 (r.ContainerID + r.Size))) := by
    intro m
    rw [← mappingFound_false_iff]
    simp only [Bool.and_eq_true, decide_eq_true_eq, Bool.not_eq_true', gt_iff_lt,
      List.length_pos]
  unfold gid5Available at h
  cases hr : isRootless
  · -- not rootless
    simp only [hr, Bool.false_eq_true, if_false] at h
    cases hm : s.IDMappings with
    | none =>
      simp only [hm] at h
      injection h with h
      subst h
      simp
    | some m =>
      simp only [hm, Bool.true_and] at h
      have hk := key m
      by_cases hc : (decide (m.GIDMap.length > 0) && !mappingFound m.GIDMap) = true
      · have hc2 := hc
        simp only [Bool.and_eq_true, Bool.not_eq_true'] at hc2
        simp only [hc2.1, hc2.2, Bool.not_false, if_true] at h
        injection h with h
        subst h
        simp only [Bool.false_eq_true, false_and, false_or, Option.some.injEq,
          exists_eq_left', true_iff]
        exact hk.mp hc
      · have hne : ¬ (m.GIDMap ≠ [] ∧ ∀ r ∈ m.GIDMap,
            ¬ (r.ContainerID ≤ 5 ∧ 5 < wrapInt64 (r.ContainerID + r.Size))) :=
          fun hx => hc (hk.mpr hx)
        have hb : b = true := by
          cases hl : decide (m.GIDMap.length > 0) <;> cases hf : mappingFound m.GIDMap <;>
            simp [hl, hf] at h hc <;> first | exact h.symm | exact h
        subst hb
        simp only [Bool.true_eq_false, Bool.false_eq_true, false_and, false_or,
          Option.some.injEq, exists_eq_left', false_iff]
        exact hne
  · -- rootless
    simp only [hr, if_true] at h
    cases hg : GetAvailableGids parseIDMapFile with
    | error err => simp [hg] at h
    | ok n =>
      simp only [hg] at h
      cases hm : s.IDMappings with
      | none =>
        simp only [hm] at h
        injection h with h
        subst h
        simp
      | some m =>
        simp only [hm] at h
        have hk := key m
        by_cases hn : 5 ≤ n
        · have hd : decide (n ≥ 5) = true := by simpa using hn
          simp only [hd, Bool.true_and] at h
          by_cases hc : (decide (m.GIDMap.length > 0) && !mappingFound m.GIDMap) = true
          · have hc2 := hc
            simp only [Bool.and_eq_true, Bool.not_eq_true'] at hc2
            simp only [hc2.1, hc2.2, Bool.not_false, if_true] at h
            injection h with h
            subst h
            simp only [true_iff]
            right
            exact ⟨m, rfl, hk.mp hc⟩
          · have hne : ¬ (m.GIDMap ≠ [] ∧ ∀ r ∈ m.GIDMap,
                ¬ (r.ContainerID ≤ 5 ∧ 5 < wrapInt64 (r.ContainerID + r.Size))) :=
              fun hx => hc (hk.mpr hx)
            have hb : b = true := by
              cases hl : decide (m.GIDMap.length > 0) <;> cases hf : mappingFound m.GIDMap <;>
                simp [hl, hf] at h hc <;> first | exact h.symm | exact h
            subst hb
            simp only [Bool.true_eq_false, Except.ok.injEq, true_and, exists_eq_left',
              Option.some.injEq, false_iff, not_or]
            exact ⟨by omega, hne⟩
        · have hd : decide (n ≥ 5) = false := by simpa using hn
          simp only [hd, Bool.false_and, Bool.false_eq_true, if_false] at h
          injection h with h
          subst h
          simp only [true_iff]
          left
          exact ⟨trivial, n, rfl, by omega⟩

/-- C17: whenever the mount plan of `SpecGenToOCI` completes, starting from the
builder `g0`, it replaces the `/dev/pts` mount (removes it and adds the explicit
devpts entry) if and only if execution is rootless and the counts of the
process GID-map ranges, summed as `GetAvailableGids` does, are less than 5, or
the declared GID map is non-empty and has no range `r` with
`r.ContainerID <= 5 < r.ContainerID + r.Size`; otherwise no operation names
`/dev/pts` and the entries of `g0` there are left as they were.  With nil ID
mappings or an empty declared GID map the replacement is made only in the
rootless case with fewer than 5 GIDs.  The sums are those of the source,
`int64` and `int`: for non-negative counts adding up to less than 2^63 the
probe gives their sum, and a sum `ContainerID + Size` within the 64-bit range
is the plain sum. -/
theorem mountPlan_devPts_iff (isRootless : Bool) (g0 g1 : Generator)
    (parseIDMapFile : Except Error (List UserIDMap)) (s : SpecGenerator)
    (h : mountPlan isRootless (Except.ok g0) parseIDMapFile s = Except.ok g1) :
    ((Call.RemoveMount "/dev/pts" ∈ issued g0 g1
          ∧ addedAt "/dev/pts" (issued g0 g1)
            = [{ Destination := "/dev/pts", Typ := "devpts", Source := "devpts",
                 Options := ["rprivate", "nosuid", "noexec", "newinstance",
                   "ptmxmode=0666", "mode=0620"] }])
        ↔ ((isRootless = true ∧ ∃ n, GetAvailableGids parseIDMapFile = Except.ok n ∧ n < 5)
            ∨ ∃ m, s.IDMappings = some m ∧ m.GIDMap ≠ []
                ∧ ∀ r ∈ m.GIDMap,
                    ¬ (r.ContainerID ≤ 5 ∧ 5 < wrapInt64 (r.ContainerID + r.Size))))
      ∧ (Call.RemoveMount "/dev/pts" ∈ issued g0 g1 →
          mountsAt "/dev/pts" g1.Mounts
            = [{ Destination := "/dev/pts", Typ := "devpts", Source := "devpts",
                 Options := ["rprivate", "nosuid", "noexec", "newinstance",
                   "ptmxmode=0666", "mode=0620"] }])
      ∧ (Call.RemoveMount "/dev/pts" ∉ issued g0 g1 →
          addedAt "/dev/pts" (issued g0 g1) = []
            ∧ mountsAt "/dev/pts" g1.Mounts = mountsAt "/dev/pts" g0.Mounts)
      ∧ ((s.IDMappings = none ∨ ∃ m, s.IDMappings = some m ∧ m.GIDMap = []) →
          (Call.RemoveMount "/dev/pts" ∈ issued g0 g1
            ↔ (isRootless = true
                ∧ ∃ n, GetAvailableGids parseIDMapFile = Except.ok n ∧ n < 5)))
      ∧ (∀ idMap, parseIDMapFile = Except.ok idMap → (∀ r ∈ idMap, 0 ≤ r.Count) →
          (idMap.map (fun r => r.Count)).sum < 2 ^ 63 →
          GetAvailableGids parseIDMapFile = Except.ok (idMap.map (fun r => r.Count)).sum)
      ∧ (∀ r : IDMap, -2 ^ 63 ≤ r.ContainerID + r.Size → r.ContainerID + r.Size < 2 ^ 63 →
          wrapInt64 (r.ContainerID + r.Size) = r.ContainerID + r.Size) := by
  obtain ⟨gid5, hp, rfl⟩ := mountPlan_ok isRootless g0 g1 parseIDMapFile s h
  have hiff := gid5Available_false_iff isRootless parseIDMapFile s gid5 hp
  rw [mountSteps_planCalls]
  have hrem := removeDevPts_mem_planCalls isRootless s gid5
  have hadd := addedAt_devPts_planCalls isRootless s gid5
  refine ⟨?_, ?_, ?_, ?_, ?_, ?_⟩
  · rw [← hiff, hrem, hadd]
    constructor
    · exact fun hx => hx.1
    · intro hx
      subst hx
      exact ⟨rfl, rfl⟩
  · intro hx
    rw [hrem] at hx
    subst hx
    rw [mountSteps_mountsAt_devPts]
    rfl
  · intro hx
    rw [hrem] at hx
    have hg : gid5 = true := by
      cases gid5
      · exact absurd rfl hx
      · rfl
    subst hg
    rw [hadd, mountSteps_mountsAt_devPts]
    exact ⟨rfl, rfl⟩
  · intro hnil
    rw [hrem, hiff]
    constructor
    · rintro (hx | ⟨m, hm, hne, -⟩)
      · exact hx
      · rcases hnil with hn | ⟨m2, hm2, he⟩
        · rw [hn] at hm
          cases hm
        · rw [hm2] at hm
          injection hm with hm
          subst hm
          exact absurd he hne
    · exact fun hx => Or.inl hx
  · intro idMap hq hpos hsum
    rw [hq]
    exact GetAvailableGids_sum idMap hpos hsum
  · intro r h1 h2
    exact wrapInt64_of_range _ h1 h2

/-- Witness for C17: rootless, process GID map of one range of 3 GIDs, no ID
mappings declared, a freshly created builder. -/
theorem mountPlan_devPts_iff_witness :
    ∃ g1, mountPlan true (Except.ok freshBuilder)
          (Except.ok [{ ID := 0, ParentID := 1000, Count := 3 }]) hostSpec = Except.ok g1
      ∧ Call.RemoveMount "/dev/pts" ∈ issued freshBuilder g1
      ∧ (Call.RemoveMount "/dev/pts" ∈ issued freshBuilder g1 →
          mountsAt "/dev/pts" g1.Mounts
            = [{ Destination := "/dev/pts", Typ := "devpts", Source := "devpts",
                 Options := ["rprivate", "nosuid", "noexec", "newinstance",
                   "ptmxmode=0666", "mode=0620"] }]) :=
  ⟨mountSteps true hostSpec false freshBuilder, rfl, by decide,
    (mountPlan_devPts_iff true freshBuilder _
      (Except.ok [{ ID := 0, ParentID := 1000, Count := 3 }]) hostSpec rfl).2.1⟩

theorem applyCalls_append (a b : List Call) (ms : List Mount) :
    applyCalls (a ++ b) ms = applyCalls b (applyCalls a ms) := by
  simp [applyCalls, List.foldl_append]

theorem sysMount_Mounts (isRootless : Bool) (s : SpecGenerator) (g : Generator) :
    (sysMount isRootless s g).g.Mounts = applyCalls (sysCalls isRootless s) g.Mounts := by
  unfold sysMount sysCalls
  cases s.Privileged <;> cases canMountSys isRootless s <;> cases isRootless <;> rfl

theorem devPtsMount_Mounts (gid5 : Bool) (g : Generator) :
    (devPtsMount gid5 g).Mounts = applyCalls (devPtsCalls gid5) g.Mounts := by
  unfold devPtsMount devPtsCalls
  cases gid5 <;> rfl

theorem mqueueMount_Mounts (isRootless : Bool) (s : SpecGenerator) (g : Generator) :
    (mqueueMount isRootless s g).Mounts = applyCalls (mqueueCalls isRootless s) g.Mounts := by
  unfold mqueueMount mqueueCalls
  cases inUserNS isRootless s && s.IpcNS.IsHost <;> rfl

theorem procStep_Mounts (isRootless : Bool) (s : SpecGenerator) (g : Generator) :
    (procStep isRootless s g).Mounts = applyCalls (procCalls isRootless s) g.Mounts := by
  unfold procStep procCalls
  cases inUserNS isRootless s && s.PidNS.IsHost <;> rfl

theorem mountSteps_Mounts (isRootless : Bool) (s : SpecGenerator) (gid5 : Bool)
    (g : Generator) :
    (mountSteps isRootless s gid5 g).Mounts
      = applyCalls (planCalls isRootless s gid5) g.Mounts := by
  have hc : ∀ g1 : Generator,
      (cgroupMount
          (sysMount isRootless s { g.RemoveMount "/dev/shm" with HostSpecific := true }).addCgroup
          (sysMount isRootless s { g.RemoveMount "/dev/shm" with HostSpecific := true }).cgroupPerm
          g1).Mounts
        = applyCalls (cgroupCalls isRootless s) g1.Mounts := by
    intro g1
    unfold cgroupMount cgroupCalls
    rw [sysMount_addCgroup]
    cases hcm : canMountSys isRootless s
    · rfl
    · simp only [if_true, sysMount_cgroupPerm _ _ _ hcm]
      rfl
  unfold mountSteps planCalls
  simp only []
  rw [hc, procStep_Mounts, mqueueMount_Mounts, devPtsMount_Mounts, sysMount_Mounts]
  simp only [applyCalls_append]
  rfl

theorem keptMounts_cons (dest : String) (removed : List String) (ms : List Mount) :
    keptMounts (dest :: removed) ms
      = keptMounts removed (ms.filter (fun m => m.Destination != dest)) := by
  unfold keptMounts
  rw [List.filter_filter]
  apply List.filter_congr
  intro m _
  by_cases hm : m.Destination = dest
  · simp [hm]
  · have hm2 : ¬ dest = m.Destination := fun hx => hm hx.symm
    simp [hm, hm2]

theorem applyCalls_kept (cs : List Call) (kept added : List Mount)
    (h : removesFirst (added.map (fun m => m.Destination)) cs = true) :
    applyCalls cs (kept ++ added)
      = keptMounts (removedDests cs) kept ++ (added ++ addedMounts cs) := by
  induction cs generalizing kept added with
  | nil => simp [applyCalls, removedDests, addedMounts, keptMounts]
  | cons c cs ih =>
    have hstep : applyCalls (c :: cs) (kept ++ added)
        = applyCalls cs (applyCall c (kept ++ added)) := rfl
    rw [hstep]
    cases c with
    | AddMount mnt =>
      have h2 : removesFirst ((added ++ [mnt]).map (fun m => m.Destination)) cs = true := by
        simpa [removesFirst] using h
      have e : applyCall (Call.AddMount mnt) (kept ++ added) = kept ++ (added ++ [mnt]) := by
        simp [applyCall]
      rw [e, ih kept (added ++ [mnt]) h2]
      simp [removedDests, addedMounts]
    | RemoveMount dest =>
      simp only [removesFirst, Bool.and_eq_true, Bool.not_eq_true'] at h
      have hno : ∀ m ∈ added, (m.Destination != dest) = true := by
        intro m hm
        have hc := h.1
        by_cases hd : m.Destination = dest
        · exfalso
          have : (added.map (fun m => m.Destination)).contains dest = true := by
            simp only [List.contains_iff_exists_mem_beq, List.mem_map]
            exact ⟨m.Destination, ⟨m, hm, rfl⟩, by simp [hd]⟩
          rw [this] at hc
          cases hc
        · simp [hd]
      have e : applyCall (Call.RemoveMount dest) (kept ++ added)
          = kept.filter (fun m => m.Destination != dest) ++ added := by
        simp only [applyCall, List.filter_append]
        rw [List.filter_eq_self.mpr hno]
      rw [e, ih _ added h.2]
      simp [removedDests, addedMounts, keptMounts_cons]
    | AddLinuxMaskedPaths q =>
      have e : applyCall (Call.AddLinuxMaskedPaths q) (kept ++ added) = kept ++ added := rfl
      rw [e, ih kept added (by simpa [removesFirst] using h)]
      simp [removedDests, addedMounts]
    | AddProcessRlimits a b d =>
      have e : applyCall (Call.AddProcessRlimits a b d) (kept ++ added) = kept ++ added := rfl
      rw [e, ih kept added (by simpa [removesFirst] using h)]
      simp [removedDests, addedMounts]

theorem removesFirst_planCalls (isRootless : Bool) (s : SpecGenerator) (gid5 : Bool) :
    removesFirst [] (planCalls isRootless s gid5) = true := by
  unfold planCalls sysCalls devPtsCalls mqueueCalls procCalls cgroupCalls
  cases s.Privileged <;> cases canMountSys isRootless s <;> cases isRootless <;> cases gid5 <;>
    cases inUserNS _ s && s.IpcNS.IsHost <;> cases inUserNS _ s && s.PidNS.IsHost <;>
    decide

theorem mem_addedAt (dest : String) (mnt : Mount) (cs : List Call) :
    mnt ∈ addedAt dest cs ↔ (Call.AddMount mnt ∈ cs ∧ mnt.Destination = dest) := by
  induction cs with
  | nil => simp [addedAt]
  | cons c cs ih =>
    cases c with
    | AddMount m2 =>
      by_cases hm : m2.Destination = dest
      · simp only [addedAt, hm, beq_self_eq_true, if_true, List.mem_cons, ih, Call.AddMount.injEq]
        constructor
        · rintro (hx | hx)
          · subst hx
            exact ⟨Or.inl rfl, hm⟩
          · exact ⟨Or.inr hx.1, hx.2⟩
        · rintro ⟨hx | hx, hd⟩
          · exact Or.inl hx
          · exact Or.inr ⟨hx, hd⟩
      · have hb : (m2.Destination == dest) = false := by simpa using hm
        simp only [addedAt, hb, Bool.false_eq_true, if_false, List.mem_cons, ih,
          Call.AddMount.injEq]
        constructor
        · rintro ⟨hx, hd⟩
          exact ⟨Or.inr hx, hd⟩
        · rintro ⟨hx | hx, hd⟩
          · subst hx
            exact absurd hd hm
          · exact ⟨hx, hd⟩
    | RemoveMount d => simpa [addedAt] using ih
    | AddLinuxMaskedPaths q => simpa [addedAt] using ih
    | AddProcessRlimits a b c => simpa [addedAt] using ih

theorem addedMounts_planCalls_order (isRootless : Bool) (s : SpecGenerator) (gid5 : Bool) :
    ((addedMounts (planCalls isRootless s gid5)).map (fun m => m.Destination)).Sublist
      ["/sys", "/dev/pts", "/dev/mqueue", "/proc", "/sys/fs/cgroup"] := by
  unfold planCalls sysCalls devPtsCalls mqueueCalls procCalls cgroupCalls
  cases s.Privileged <;> cases canMountSys isRootless s <;> cases isRootless <;> cases gid5 <;>
    cases inUserNS _ s && s.IpcNS.IsHost <;> cases inUserNS _ s && s.PidNS.IsHost <;>
    decide

theorem mountSteps_cgroup_last (isRootless : Bool) (s : SpecGenerator) (gid5 : Bool)
    (g : Generator) (h : canMountSys isRootless s = true) :
    ∃ pre, (mountSteps isRootless s gid5 g).Mounts
      = pre ++ [cgroupMnt (if s.Privileged then "rw" else "ro")] := by
  rw [mountSteps_Mounts]
  unfold planCalls
  rw [applyCalls_append]
  refine ⟨applyCalls
    ([Call.RemoveMount "/dev/shm"] ++ sysCalls isRootless s ++ devPtsCalls gid5
      ++ mqueueCalls isRootless s ++ procCalls isRootless s) g.Mounts, ?_⟩
  unfold cgroupCalls
  simp only [h, if_true]
  rfl

/-- C19: whenever the mount plan of `SpecGenToOCI` completes, starting from the
builder `g0` with any mount list, and with `RemoveMount` deleting every entry
at its destination and `AddMount` appending: the mount list it leaves is the
entries of `g0` whose destination was not removed, in their order, followed by
the entries the translator added, in the order of the `AddMount` calls; the
destinations of the added entries come in the relative order /sys, /dev/pts,
/dev/mqueue, /proc, /sys/fs/cgroup; and whenever an entry for /sys/fs/cgroup
is added it is the last entry of the list, so that every /sys entry comes
before it. -/
theorem mountPlan_order (isRootless : Bool) (g0 g1 : Generator)
    (parseIDMapFile : Except Error (List UserIDMap)) (s : SpecGenerator)
    (h : mountPlan isRootless (Except.ok g0) parseIDMapFile s = Except.ok g1) :
    g1.Mounts
        = keptMounts (removedDests (issued g0 g1)) g0.Mounts ++ addedMounts (issued g0 g1)
      ∧ ((addedMounts (issued g0 g1)).map (fun m => m.Destination)).Sublist
          ["/sys", "/dev/pts", "/dev/mqueue", "/proc", "/sys/fs/cgroup"]
      ∧ (∀ mnt, Call.AddMount mnt ∈ issued g0 g1 → mnt.Destination = "/sys/fs/cgroup" →
          ∃ pre, g1.Mounts = pre ++ [mnt]
            ∧ ∀ m ∈ g1.Mounts, m.Destination = "/sys" → m ∈ pre) := by
  obtain ⟨gid5, -, rfl⟩ := mountPlan_ok isRootless g0 g1 parseIDMapFile s h
  rw [mountSteps_planCalls]
  refine ⟨?_, addedMounts_planCalls_order isRootless s gid5, ?_⟩
  · rw [mountSteps_Mounts]
    have hk := applyCalls_kept (planCalls isRootless s gid5) g0.Mounts []
      (removesFirst_planCalls isRootless s gid5)
    simpa using hk
  · intro mnt hmem hdest
    have hin : mnt ∈ addedAt "/sys/fs/cgroup" (planCalls isRootless s gid5) :=
      (mem_addedAt _ _ _).mpr ⟨hmem, hdest⟩
    have hadd := addedAt_cgroup_planCalls isRootless s gid5
    unfold planCalls at hin
    rw [hadd] at hin
    cases hc : canMountSys isRootless s
    · simp [hc] at hin
    · simp only [hc, if_true, List.mem_singleton] at hin
      obtain ⟨pre, hpre⟩ := mountSteps_cgroup_last isRootless s gid5 g0 hc
      refine ⟨pre, by rw [hpre, hin], ?_⟩
      intro m hm hd
      rw [hpre] at hm
      rcases List.mem_append.mp hm with hx | hx
      · exact hx
      · exfalso
        rw [List.mem_singleton] at hx
        rw [hx] at hd
        simp [cgroupMnt] at hd

/-- Witness for C19: not rootless, privileged, every namespace shared with the
host, a freshly created builder. -/
theorem mountPlan_order_witness :
    ∃ g1, mountPlan false (Except.ok freshBuilder) (Except.ok fiveGids)
          { hostSpec with Privileged := true } = Except.ok g1
      ∧ (g1.Mounts
            = keptMounts (removedDests (issued freshBuilder g1)) freshBuilder.Mounts
              ++ addedMounts (issued freshBuilder g1)
          ∧ ((addedMounts (issued freshBuilder g1)).map (fun m => m.Destination)).Sublist
              ["/sys", "/dev/pts", "/dev/mqueue", "/proc", "/sys/fs/cgroup"]
          ∧ (∀ mnt, Call.AddMount mnt ∈ issued freshBuilder g1 →
              mnt.Destination = "/sys/fs/cgroup" →
              ∃ pre, g1.Mounts = pre ++ [mnt]
                ∧ ∀ m ∈ g1.Mounts, m.Destination = "/sys" → m ∈ pre)) :=
  ⟨mountSteps false { hostSpec with Privileged := true } true freshBuilder, rfl,
    mountPlan_order false freshBuilder _ (Except.ok fiveGids)
      { hostSpec with Privileged := true } rfl⟩

/-! ## Runs of SpecGenToOCI: auxiliary facts -/

theorem andThen_atomic (c : Collaborators) (s : SpecGenerator) (r : Run)
    (rest : Generator → Run) (hr : r.atomic c s) (hrest : ∀ g, (rest g).atomic c s) :
    (r.andThen rest).atomic c s := by
  unfold Run.andThen
  cases hres : r.result with
  | error err =>
    unfold Run.atomic at hr ⊢
    simp only [hres] at hr ⊢
    exact hr
  | ok g =>
    have h2 := hrest g
    unfold Run.atomic at hr h2 ⊢
    simp only [hres] at hr ⊢
    cases hres2 : (rest g).result with
    | ok g2 =>
      simp only [hres2] at h2 ⊢
      intro x hx
      rcases List.mem_append.mp hx with hx | hx
      · exact hr x hx
      · exact h2 x hx
    | error err =>
      simp only [hres2] at h2 ⊢
      obtain ⟨pre, last, hs, he, hf, hp⟩ := h2
      refine ⟨r.steps ++ pre, last, by rw [hs, List.append_assoc], he, hf, ?_⟩
      intro x hx
      rcases List.mem_append.mp hx with hx | hx
      · exact hr x hx
      · exact hp x hx

theorem call_atomic (c : Collaborators) (s : SpecGenerator) (step : Step)
    (r : Except Error Generator) (h : ∀ err, r = Except.error err → failedWith c s err step) :
    (call step r).atomic c s := by
  unfold Run.atomic call
  cases r with
  | error err =>
    exact ⟨[], _, rfl, rfl, h err rfl, by simp⟩
  | ok g =>
    intro x hx
    simp only [List.mem_singleton] at hx
    rw [hx]
    rfl

theorem mountPlan_error (isRootless : Bool) (g : Generator)
    (parseIDMapFile : Except Error (List UserIDMap)) (s : SpecGenerator) (err : Error)
    (h : mountPlan isRootless (Except.ok g) parseIDMapFile s = Except.error err) :
    isRootless = true ∧ parseIDMapFile = Except.error err := by
  unfold mountPlan at h
  cases hp : gid5Available isRootless parseIDMapFile s with
  | ok b => simp [hp] at h
  | error e2 =>
    simp only [hp] at h
    injection h with h
    subst h
    unfold gid5Available at hp
    cases hr : isRootless
    · simp only [hr, Bool.false_eq_true, if_false] at hp
      cases hm : s.IDMappings with
      | none => simp [hm] at hp
      | some m =>
        simp only [hm] at hp
        split at hp
        · split at hp <;> cases hp
        · cases hp
    · refine ⟨rfl, ?_⟩
      simp only [hr, if_true] at hp
      cases hq : parseIDMapFile with
      | error e3 =>
        simp only [hq, GetAvailableGids] at hp
        injection hp with hp
        rw [hp]
      | ok idMap =>
        simp only [hq, GetAvailableGids] at hp
        cases hm : s.IDMappings with
        | none => simp [hm] at hp
        | some m =>
          simp only [hm] at hp
          split at hp
          · split at hp <;> cases hp
          · cases hp

theorem mountPlan_rootless_ok (g g1 : Generator)
    (parseIDMapFile : Except Error (List UserIDMap)) (s : SpecGenerator)
    (h : mountPlan true (Except.ok g) parseIDMapFile s = Except.ok g1) :
    errOf (GetAvailableGids parseIDMapFile) = none := by
  cases hq : parseIDMapFile with
  | ok idMap => rfl
  | error e =>
    exfalso
    rw [hq] at h
    simp [mountPlan, gid5Available, GetAvailableGids] at h

theorem mountPlanRun_atomic (c : Collaborators) (isRootless : Bool) (s : SpecGenerator) :
    (mountPlanRun c isRootless s).atomic c s := by
  unfold mountPlanRun
  cases hn : c.New with
  | error err =>
    unfold Run.atomic
    exact ⟨[], _, rfl, rfl, hn, by simp⟩
  | ok g =>
    unfold Run.atomic
    cases hm : mountPlan isRootless (Except.ok g) c.parseIDMapFile s with
    | ok g1 =>
      simp only [hm]
      intro x hx
      cases isRootless
      · simp only [Bool.false_eq_true, if_false, List.mem_singleton] at hx
        rw [hx]
      · simp only [if_true, List.mem_cons, List.mem_singleton, List.not_mem_nil,
          or_false] at hx
        rcases hx with hx | hx
        · rw [hx]
        · rw [hx]
          exact mountPlan_rootless_ok g g1 c.parseIDMapFile s hm
    | error err =>
      simp only [hm]
      obtain ⟨hr, hq⟩ := mountPlan_error isRootless g c.parseIDMapFile s err hm
      subst hr
      refine ⟨[{ step := Step.New, err := none }],
        { step := Step.GetAvailableGids, err := some err }, ?_, rfl, hq, by simp⟩
      simp [hq, GetAvailableGids, errOf]

theorem addRlimits_ok (ToUpper : String → String) (isRootless : Bool) (s : SpecGenerator)
    (g : Generator) : ∃ g1, addRlimits ToUpper isRootless s g = Except.ok g1 := by
  unfold addRlimits
  cases s.Rlimits with
  | none => exact ⟨_, rfl⟩
  | some L => exact ⟨_, rfl⟩

theorem InitFSMounts_error (processOptions : Mount → Except Error (List String))
    (ms : List Mount) (err : Error)
    (h : InitFSMounts processOptions ms = Except.error err) :
    ∃ m ∈ ms, processOptions m = Except.error err := by
  induction ms with
  | nil => simp [InitFSMounts] at h
  | cons m rest ih =>
    unfold InitFSMounts at h
    cases hp : processOptions m with
    | error e2 =>
      simp only [hp] at h
      injection h with h
      subst h
      exact ⟨m, List.mem_cons_self m rest, hp⟩
    | ok opts =>
      simp only [hp] at h
      cases hr : InitFSMounts processOptions rest with
      | error e3 =>
        simp only [hr] at h
        injection h with h
        subst h
        obtain ⟨m2, hm2, he⟩ := ih hr
        exact ⟨m2, List.mem_cons_of_mem m hm2, he⟩
      | ok rest2 => simp [hr] at h

theorem addDevices_atomic (c : Collaborators) (s : SpecGenerator) (ds : List LinuxDevice)
    (g : Generator) : (addDevices c ds g).atomic c s := by
  induction ds generalizing g with
  | nil =>
    unfold addDevices Run.atomic
    simp
  | cons d rest ih =>
    unfold addDevices
    cases hd : c.DevicesFromPath g d.Path with
    | error err =>
      unfold Run.atomic
      exact ⟨[], _, rfl, rfl, ⟨g, hd⟩, by simp⟩
    | ok g1 =>
      have h1 := ih g1
      unfold Run.atomic at h1 ⊢
      cases hr : (addDevices c rest g1).result with
      | ok g2 =>
        simp only [hr] at h1 ⊢
        intro x hx
        rcases List.mem_cons.mp hx with hx | hx
        · rw [hx]
        · exact h1 x hx
      | error err =>
        simp only [hr] at h1 ⊢
        obtain ⟨pre, last, hs, he, hf, hp⟩ := h1
        refine ⟨{ step := Step.DevicesFromPath d.Path, err := none } :: pre, last,
          by rw [hs, List.cons_append], he, hf, ?_⟩
        intro x hx
        rcases List.mem_cons.mp hx with hx | hx
        · rw [hx]
        · exact hp x hx

theorem devicePlan_atomic (c : Collaborators) (s : SpecGenerator) (g : Generator) :
    (devicePlan c s g).atomic c s := by
  unfold devicePlan
  cases s.Privileged
  · exact addDevices_atomic c s s.Devices g
  · exact call_atomic c s _ _ (fun err h => ⟨g, h⟩)

theorem securityOpts_atomic (c : Collaborators) (isRootless : Bool) (s : SpecGenerator)
    (g : Generator) : (securityOpts c isRootless s g).atomic c s := by
  unfold securityOpts
  simp only []
  obtain ⟨g1, hg1⟩ := addRlimits_ok c.ToUpper isRootless s
    (s.Env.foldl (fun g kv => g.AddProcessEnv kv.1 kv.2)
      (c.BlockAccessToKernelFilesystems s.Privileged s.PidNS.IsHost
        (if !s.Privileged then
          (g.SetProcessNoNewPrivileges s.NoNewPrivileges).SetProcessApparmorProfile
            s.ApparmorProfile
         else g.SetProcessNoNewPrivileges s.NoNewPrivileges)))
  unfold Run.atomic
  simp only [hg1, call, errOf]
  intro x hx
  simp only [List.mem_cons, List.mem_singleton, List.not_mem_nil, or_false] at hx
  rcases hx with hx | hx <;> rw [hx]

theorem finalize_atomic (c : Collaborators) (s : SpecGenerator) (g : Generator) :
    (finalize c s g).atomic c s := by
  unfold finalize
  simp only []
  cases hi : InitFSMounts c.processOptions (SupercedeUserMounts s.Mounts g.Mounts) with
  | error err =>
    obtain ⟨m, -, hm⟩ := InitFSMounts_error _ _ _ hi
    unfold Run.atomic
    exact ⟨[{ step := Step.SupercedeUserMounts, err := none }], _, rfl, rfl, ⟨m, hm⟩,
      by simp⟩
  | ok mounts =>
    unfold Run.atomic
    simp only []
    intro x hx
    simp only [List.mem_cons, List.mem_singleton, List.not_mem_nil, or_false] at hx
    rcases hx with hx | hx <;> rw [hx]

theorem SpecGenToOCI_run_atomic (c : Collaborators) (isRootless : Bool) (s : SpecGenerator) :
    (SpecGenToOCI c isRootless s).atomic c s := by
  unfold SpecGenToOCI
  apply andThen_atomic _ _ _ _ (mountPlanRun_atomic c isRootless s)
  intro g
  apply andThen_atomic _ _ _ _ (devicePlan_atomic c s _)
  intro g
  unfold afterDevices
  apply andThen_atomic _ _ _ _ (securityOpts_atomic c isRootless s g)
  intro g
  apply andThen_atomic _ _ _ _
    (call_atomic c s Step.specConfigureNamespaces (c.specConfigureNamespaces s g)
      (fun err h => ⟨g, h⟩))
  intro g
  apply andThen_atomic _ _ _ _
    (call_atomic c s Step.securityConfigureGenerator (c.securityConfigureGenerator s g)
      (fun err h => ⟨g, h⟩))
  intro g
  exact finalize_atomic c s g

/-! ## Runs of SpecGenToOCI: the claims -/

/-- C13: `SpecGenToOCI` fails atomically.  If it returns an error, no
specification is returned with it, the last call it executed is the one that
returned this very error (the creation of the builder, the read of the GID map
under rootless execution, the enumeration of the host devices, the resolution
of a device path, the configuration of the namespaces or of the security
settings, the normalisation of a mount's options), and every call before it
returned a nil error.  A call that returns an error is never followed by
another call, and its error is the one returned.  If every executed call
returned a nil error a specification is returned, with no error, and
conversely.  In particular a failed creation of the builder is the only call
made, and a failed read of the GID map under rootless execution is the second
and last one. -/
theorem SpecGenToOCI_atomic (c : Collaborators) (isRootless : Bool) (s : SpecGenerator) :
    (∀ err, (SpecGenToOCI c isRootless s).result = Except.error err →
        ∃ pre last, (SpecGenToOCI c isRootless s).steps = pre ++ [last]
          ∧ last.err = some err ∧ failedWith c s err last.step
          ∧ ∀ x ∈ pre, x.err = none)
      ∧ (∀ pre x post err, (SpecGenToOCI c isRootless s).steps = pre ++ x :: post →
          x.err = some err →
          post = [] ∧ (SpecGenToOCI c isRootless s).result = Except.error err)
      ∧ (∀ spec, (SpecGenToOCI c isRootless s).result = Except.ok spec →
          ∀ x ∈ (SpecGenToOCI c isRootless s).steps, x.err = none)
      ∧ ((∀ x ∈ (SpecGenToOCI c isRootless s).steps, x.err = none) →
          ∃ spec, (SpecGenToOCI c isRootless s).result = Except.ok spec)
      ∧ (∀ err, c.New = Except.error err →
          (SpecGenToOCI c isRootless s).steps = [{ step := Step.New, err := some err }]
            ∧ (SpecGenToOCI c isRootless s).result = Except.error err)
      ∧ (∀ g err, c.New = Except.ok g → isRootless = true →
          c.parseIDMapFile = Except.error err →
          (SpecGenToOCI c isRootless s).steps
              = [{ step := Step.New, err := none },
                 { step := Step.GetAvailableGids, err := some err }]
            ∧ (SpecGenToOCI c isRootless s).result = Except.error err) := by
  have hat := SpecGenToOCI_run_atomic c isRootless s
  unfold Run.atomic at hat
  refine ⟨?_, ?_, ?_, ?_, ?_, ?_⟩
  · intro err hres
    simp only [hres] at hat
    exact hat
  · intro pre x post err hsteps hx
    cases hres : (SpecGenToOCI c isRootless s).result with
    | ok spec =>
      simp only [hres] at hat
      have hnone := hat x (by rw [hsteps]; simp)
      rw [hnone] at hx
      cases hx
    | error e2 =>
      simp only [hres] at hat
      obtain ⟨pre2, last, hs, he, -, hp⟩ := hat
      rw [hsteps] at hs
      cases post with
      | nil =>
        have hlast : x = last := by
          have hh := congrArg List.getLast? hs
          simpa using hh
        subst hlast
        rw [he] at hx
        injection hx with hx
        exact ⟨rfl, by rw [hx]⟩
      | cons y ys =>
        exfalso
        have hh := congrArg List.dropLast hs
        rw [List.dropLast_concat] at hh
        have hmem : x ∈ (pre ++ x :: y :: ys).dropLast := by
          have e : pre ++ x :: y :: ys = (pre ++ [x]) ++ (y :: ys) := by simp
          rw [e, List.dropLast_append_of_ne_nil _ (List.cons_ne_nil y ys)]
          simp
        rw [hh] at hmem
        have hnone := hp x hmem
        rw [hnone] at hx
        cases hx
  · intro spec hres
    simp only [hres] at hat
    exact hat
  · intro hall
    cases hres : (SpecGenToOCI c isRootless s).result with
    | ok spec => exact ⟨spec, rfl⟩
    | error e2 =>
      exfalso
      simp only [hres] at hat
      obtain ⟨pre2, last, hs, he, -, -⟩ := hat
      have hnone := hall last (by rw [hs]; simp)
      rw [hnone] at he
      cases he
  · intro err hn
    unfold SpecGenToOCI mountPlanRun
    simp [hn, Run.andThen]
  · intro g err hn hr hq
    subst hr
    unfold SpecGenToOCI mountPlanRun
    simp [hn, hq, Run.andThen, mountPlan, gid5Available, GetAvailableGids, errOf]

/-! ## Device plan: auxiliary facts -/

theorem atomic_failed_step (c : Collaborators) (s : SpecGenerator) (r : Run)
    (hat : r.atomic c s) (x : StepRecord) (hx : x ∈ r.steps) (err : Error)
    (he : x.err = some err) : r.result = Except.error err := by
  unfold Run.atomic at hat
  cases hres : r.result with
  | ok spec =>
    simp only [hres] at hat
    rw [hat x hx] at he
    cases he
  | error e2 =>
    simp only [hres] at hat
    obtain ⟨pre, last, hs, hl, -, hp⟩ := hat
    rw [hs] at hx
    rcases List.mem_append.mp hx with h1 | h1
    · rw [hp x h1] at he
      cases he
    · rw [List.mem_singleton] at h1
      subst h1
      rw [hl] at he
      injection he with he
      rw [he]

theorem andThen_steps_ok (r : Run) (rest : Generator → Run) (g : Generator)
    (h : r.result = Except.ok g) :
    (r.andThen rest).steps = r.steps ++ (rest g).steps := by
  unfold Run.andThen
  simp [h]

theorem andThen_steps_error (r : Run) (rest : Generator → Run) (err : Error)
    (h : r.result = Except.error err) :
    (r.andThen rest).steps = r.steps := by
  unfold Run.andThen
  simp [h]

theorem andThen_steps_all (p : StepRecord → Prop) (r : Run) (rest : Generator → Run)
    (hr : ∀ x ∈ r.steps, p x) (hrest : ∀ g, ∀ x ∈ (rest g).steps, p x) :
    ∀ x ∈ (r.andThen rest).steps, p x := by
  intro x hx
  cases hres : r.result with
  | error err =>
    rw [andThen_steps_error r rest err hres] at hx
    exact hr x hx
  | ok g =>
    rw [andThen_steps_ok r rest g hres] at hx
    rcases List.mem_append.mp hx with h1 | h1
    · exact hr x h1
    · exact hrest g x h1

/-- A call that is neither a device-path resolution nor the enumeration of the
host devices. -/
theorem afterDevices_steps (c : Collaborators) (isRootless : Bool) (s : SpecGenerator)
    (g : Generator) :
    ∀ x ∈ (afterDevices c isRootless s g).steps,
      x.step ≠ Step.addPrivilegedDevices ∧ ∀ path, x.step ≠ Step.DevicesFromPath path := by
  unfold afterDevices
  apply andThen_steps_all
  · intro x hx
    simp only [securityOpts, call, List.mem_cons, List.mem_singleton, List.not_mem_nil,
      or_false] at hx
    rcases hx with hx | hx <;> subst hx <;> simp
  · intro g2
    apply andThen_steps_all
    · intro x hx
      simp only [call, List.mem_singleton] at hx
      subst hx
      simp
    · intro g3
      apply andThen_steps_all
      · intro x hx
        simp only [call, List.mem_singleton] at hx
        subst hx
        simp
      · intro g4 x hx
        unfold finalize at hx
        simp only [] at hx
        cases hi : InitFSMounts c.processOptions (SupercedeUserMounts s.Mounts g4.Mounts) with
        | error err =>
          simp only [hi, List.mem_cons, List.mem_singleton, List.not_mem_nil, or_false] at hx
          rcases hx with hx | hx <;> subst hx <;> simp
        | ok mounts =>
          simp only [hi, List.mem_cons, List.mem_singleton, List.not_mem_nil, or_false] at hx
          rcases hx with hx | hx <;> subst hx <;> simp

theorem deviceSteps_append (a b : List StepRecord) :
    deviceSteps (a ++ b) = deviceSteps a ++ deviceSteps b := by
  simp [deviceSteps]

theorem privilegedSteps_append (a b : List StepRecord) :
    privilegedSteps (a ++ b) = privilegedSteps a ++ privilegedSteps b := by
  simp [privilegedSteps]

theorem deviceSteps_eq_nil (l : List StepRecord)
    (h : ∀ x ∈ l, ∀ path, x.step ≠ Step.DevicesFromPath path) : deviceSteps l = [] := by
  unfold deviceSteps
  rw [List.filter_eq_nil_iff]
  intro x hx
  have hh := h x hx
  cases hs : x.step <;> simp_all

theorem privilegedSteps_eq_nil (l : List StepRecord)
    (h : ∀ x ∈ l, x.step ≠ Step.addPrivilegedDevices) : privilegedSteps l = [] := by
  unfold privilegedSteps
  rw [List.filter_eq_nil_iff]
  intro x hx
  simpa using h x hx

theorem deviceSteps_eq_self (l : List StepRecord)
    (h : ∀ x ∈ l, ∃ path, x.step = Step.DevicesFromPath path) : deviceSteps l = l := by
  unfold deviceSteps
  rw [List.filter_eq_self]
  intro x hx
  obtain ⟨path, hp⟩ := h x hx
  simp [hp]

theorem addDevices_steps (c : Collaborators) (ds : List LinuxDevice) (g : Generator) :
    (∀ x ∈ (addDevices c ds g).steps, ∃ path, x.step = Step.DevicesFromPath path)
      ∧ (addDevices c ds g).steps.map (fun x => x.step)
          = (ds.take (addDevices c ds g).steps.length).map
              (fun d => Step.DevicesFromPath d.Path)
      ∧ (addDevices c ds g).steps.length ≤ ds.length
      ∧ (∀ x ∈ (addDevices c ds g).steps.dropLast, x.err = none)
      ∧ ((addDevices c ds g).steps.length < ds.length →
          ∃ last err, (addDevices c ds g).steps.getLast? = some last
            ∧ last.err = some err) := by
  induction ds generalizing g with
  | nil =>
    unfold addDevices
    simp
  | cons d rest ih =>
    unfold addDevices
    cases hd : c.DevicesFromPath g d.Path with
    | error err =>
      refine ⟨?_, ?_, ?_, ?_, ?_⟩
      · intro x hx
        simp only [List.mem_singleton] at hx
        exact ⟨d.Path, by rw [hx]⟩
      · simp
      · simp
      · simp
      · intro _
        exact ⟨_, err, rfl, rfl⟩
    | ok g1 =>
      obtain ⟨h1, h2, h3, h4, h5⟩ := ih g1
      simp only []
      refine ⟨?_, ?_, ?_, ?_, ?_⟩
      · intro x hx
        rcases List.mem_cons.mp hx with hx | hx
        · exact ⟨d.Path, by rw [hx]⟩
        · exact h1 x hx
      · simp only [List.map_cons, List.length_cons, List.take_succ_cons]
        rw [h2]
      · simp only [List.length_cons]
        omega
      · intro x hx
        cases hst : (addDevices c rest g1).steps with
        | nil =>
          rw [hst] at hx
          simp at hx
        | cons y ys =>
          rw [hst] at hx
          rw [List.dropLast_cons_of_ne_nil (List.cons_ne_nil y ys)] at hx
          rcases List.mem_cons.mp hx with hx | hx
          · rw [hx]
          · apply h4
            rw [hst]
            exact hx
      · intro hlt
        simp only [List.length_cons] at hlt
        obtain ⟨last, err, hl, he⟩ := h5 (by omega)
        refine ⟨last, err, ?_, he⟩
        cases hst : (addDevices c rest g1).steps with
        | nil =>
          rw [hst] at hl
          simp at hl
        | cons y ys =>
          rw [hst] at hl
          rw [List.getLast?_cons_cons]
          exact hl

theorem mountPlanRun_of_ok (c : Collaborators) (isRootless : Bool) (s : SpecGenerator)
    (g1 : Generator)
    (h : mountPlan isRootless c.New c.parseIDMapFile s = Except.ok g1) :
    (mountPlanRun c isRootless s).result = Except.ok g1
      ∧ ∀ x ∈ (mountPlanRun c isRootless s).steps,
          x.step ≠ Step.addPrivilegedDevices ∧ ∀ path, x.step ≠ Step.DevicesFromPath path := by
  unfold mountPlanRun
  cases hn : c.New with
  | error err =>
    rw [hn] at h
    simp [mountPlan] at h
  | ok g0 =>
    rw [hn] at h
    refine ⟨h, ?_⟩
    intro x hx
    cases isRootless
    · simp only [Bool.false_eq_true, if_false, List.mem_singleton] at hx
      subst hx
      simp
    · simp only [if_true, List.mem_cons, List.mem_singleton, List.not_mem_nil,
        or_false] at hx
      rcases hx with hx | hx <;> subst hx <;> simp

theorem SpecGenToOCI_deviceSteps (c : Collaborators) (isRootless : Bool) (s : SpecGenerator)
    (g1 : Generator)
    (h : mountPlan isRootless c.New c.parseIDMapFile s = Except.ok g1) :
    deviceSteps (SpecGenToOCI c isRootless s).steps
        = deviceSteps (devicePlan c s (processSetup s g1)).steps
      ∧ privilegedSteps (SpecGenToOCI c isRootless s).steps
        = privilegedSteps (devicePlan c s (processSetup s g1)).steps := by
  obtain ⟨hres, hall⟩ := mountPlanRun_of_ok c isRootless s g1 h
  have hm1 : deviceSteps (mountPlanRun c isRootless s).steps = [] :=
    deviceSteps_eq_nil _ (fun x hx => (hall x hx).2)
  have hm2 : privilegedSteps (mountPlanRun c isRootless s).steps = [] :=
    privilegedSteps_eq_nil _ (fun x hx => (hall x hx).1)
  unfold SpecGenToOCI
  rw [andThen_steps_ok _ _ g1 hres, deviceSteps_append, privilegedSteps_append, hm1, hm2]
  simp only [List.nil_append]
  cases hd : (devicePlan c s (processSetup s g1)).result with
  | error err =>
    rw [andThen_steps_error _ _ err hd]
    exact ⟨rfl, rfl⟩
  | ok g2 =>
    rw [andThen_steps_ok _ _ g2 hd, deviceSteps_append, privilegedSteps_append]
    have ha := afterDevices_steps c isRootless s g2
    rw [deviceSteps_eq_nil _ (fun x hx => (ha x hx).2),
      privilegedSteps_eq_nil _ (fun x hx => (ha x hx).1)]
    simp

theorem mountPlanRun_result (c : Collaborators) (isRootless : Bool) (s : SpecGenerator) :
    (mountPlanRun c isRootless s).result
      = mountPlan isRootless c.New c.parseIDMapFile s := by
  unfold mountPlanRun
  cases hn : c.New with
  | error err => simp [mountPlan]
  | ok g0 => rfl

theorem mountPlanRun_steps (c : Collaborators) (isRootless : Bool) (s : SpecGenerator) :
    ∀ x ∈ (mountPlanRun c isRootless s).steps,
      x.step ≠ Step.addPrivilegedDevices ∧ ∀ path, x.step ≠ Step.DevicesFromPath path := by
  unfold mountPlanRun
  intro x hx
  cases hn : c.New with
  | error err =>
    simp only [hn, List.mem_singleton] at hx
    subst hx
    simp
  | ok g0 =>
    simp only [hn] at hx
    cases isRootless
    · simp only [Bool.false_eq_true, if_false, List.mem_singleton] at hx
      subst hx
      simp
    · simp only [if_true, List.mem_cons, List.mem_singleton, List.not_mem_nil,
        or_false] at hx
      rcases hx with hx | hx <;> subst hx <;> simp

theorem SpecGenToOCI_deviceSteps_error (c : Collaborators) (isRootless : Bool)
    (s : SpecGenerator) (err : Error)
    (h : mountPlan isRootless c.New c.parseIDMapFile s = Except.error err) :
    deviceSteps (SpecGenToOCI c isRootless s).steps = []
      ∧ privilegedSteps (SpecGenToOCI c isRootless s).steps = [] := by
  have hres : (mountPlanRun c isRootless s).result = Except.error err := by
    rw [mountPlanRun_result]
    exact h
  have hall := mountPlanRun_steps c isRootless s
  unfold SpecGenToOCI
  rw [andThen_steps_error _ _ err hres]
  exact ⟨deviceSteps_eq_nil _ (fun x hx => (hall x hx).2),
    privilegedSteps_eq_nil _ (fun x hx => (hall x hx).1)⟩

theorem SpecGenToOCI_devicePlan_error (c : Collaborators) (isRootless : Bool)
    (s : SpecGenerator) (g1 : Generator) (err : Error)
    (h : mountPlan isRootless c.New c.parseIDMapFile s = Except.ok g1)
    (hd : (devicePlan c s (processSetup s g1)).result = Except.error err) :
    (SpecGenToOCI c isRootless s).result = Except.error err := by
  have hres : (mountPlanRun c isRootless s).result = Except.ok g1 := by
    rw [mountPlanRun_result]
    exact h
  unfold SpecGenToOCI Run.andThen
  simp only [hres]
  simp only [hd]

/-! ## Device plan: the claim -/

/-- C14: the device plan, on whatever builder it is reached with.  For a
privileged specification `addPrivilegedDevices` is called exactly once and
`DevicesFromPath` never, whatever devices are declared.  For an unprivileged
specification `addPrivilegedDevices` is never called and the calls of
`DevicesFromPath` are, in declared order, on the paths of the first declared
devices: every call but the last returned a nil error, and if fewer calls were
made than devices are declared the last call returned an error.  A call of
either function that returns an error makes the device plan return that error.
Within `SpecGenToOCI`: if the mount plan completed, the calls of the two
functions are those of the device plan on the builder the mount plan left,
and an error of the device plan is the error of the translation; if the mount
plan failed, neither function is called. -/
theorem devicePlan_calls (c : Collaborators) (isRootless : Bool) (s : SpecGenerator)
    (g : Generator) :
    (s.Privileged = true →
        (privilegedSteps (devicePlan c s g).steps).length = 1
          ∧ deviceSteps (devicePlan c s g).steps = [])
      ∧ (s.Privileged = false →
        privilegedSteps (devicePlan c s g).steps = []
          ∧ (deviceSteps (devicePlan c s g).steps).map (fun x => x.step)
            = (s.Devices.take (deviceSteps (devicePlan c s g).steps).length).map
                (fun d => Step.DevicesFromPath d.Path)
          ∧ (deviceSteps (devicePlan c s g).steps).length ≤ s.Devices.length
          ∧ (∀ x ∈ (deviceSteps (devicePlan c s g).steps).dropLast, x.err = none)
          ∧ ((deviceSteps (devicePlan c s g).steps).length < s.Devices.length →
              ∃ last err,
                (deviceSteps (devicePlan c s g).steps).getLast? = some last
                  ∧ last.err = some err))
      ∧ (∀ x ∈ (devicePlan c s g).steps, ∀ err, x.err = some err →
          (devicePlan c s g).result = Except.error err)
      ∧ (∀ g1, mountPlan isRootless c.New c.parseIDMapFile s = Except.ok g1 →
          deviceSteps (SpecGenToOCI c isRootless s).steps
              = deviceSteps (devicePlan c s (processSetup s g1)).steps
            ∧ privilegedSteps (SpecGenToOCI c isRootless s).steps
              = privilegedSteps (devicePlan c s (processSetup s g1)).steps
            ∧ ∀ err, (devicePlan c s (processSetup s g1)).result = Except.error err →
                (SpecGenToOCI c isRootless s).result = Except.error err)
      ∧ (∀ err, mountPlan isRootless c.New c.parseIDMapFile s = Except.error err →
          deviceSteps (SpecGenToOCI c isRootless s).steps = []
            ∧ privilegedSteps (SpecGenToOCI c isRootless s).steps = []) := by
  refine ⟨?_, ?_, ?_, ?_, ?_⟩
  · intro hpriv
    unfold devicePlan
    simp only [hpriv, if_true]
    constructor
    · simp [privilegedSteps, call]
    · simp [deviceSteps, call]
  · intro hpriv
    unfold devicePlan
    simp only [hpriv, Bool.false_eq_true, if_false]
    obtain ⟨h1, h2, h3, h4, h5⟩ := addDevices_steps c s.Devices g
    rw [deviceSteps_eq_self _ h1]
    refine ⟨?_, h2, h3, h4, h5⟩
    apply privilegedSteps_eq_nil
    intro x hx
    obtain ⟨path, hpath⟩ := h1 x hx
    rw [hpath]
    simp
  · intro x hx err he
    exact atomic_failed_step c s _ (devicePlan_atomic c s g) x hx err he
  · intro g1 h
    obtain ⟨hd, hp⟩ := SpecGenToOCI_deviceSteps c isRootless s g1 h
    exact ⟨hd, hp, fun err he => SpecGenToOCI_devicePlan_error c isRootless s g1 err h he⟩
  · intro err h
    exact SpecGenToOCI_deviceSteps_error c isRootless s err h

/-! ## Finalizer: auxiliary facts -/

theorem getKey_setKey_self (key value : String) (m : List (String × String)) :
    getKey key (setKey key value m) = some value := by
  induction m with
  | nil => simp [setKey, getKey]
  | cons kv rest ih =>
    unfold setKey
    by_cases hk : kv.1 = key
    · simp [hk, getKey]
    · simp [hk, getKey, ih]

theorem getKey_setKey_ne (key other value : String) (m : List (String × String))
    (hne : key ≠ other) : getKey key (setKey other value m) = getKey key m := by
  induction m with
  | nil =>
    have h2 : ¬ other = key := fun hx => hne hx.symm
    simp [setKey, getKey, h2]
  | cons kv rest ih =>
    unfold setKey
    by_cases hk : kv.1 = other
    · have h2 : ¬ kv.1 = key := fun hx => hne (hx.symm.trans hk)
      have h3 : ¬ other = key := fun hx => hne hx.symm
      simp [hk, getKey, h2, h3]
    · by_cases hk2 : kv.1 = key
      · rw [if_neg hk]
        simp only [getKey, hk2, if_true]
      · rw [if_neg hk]
        simp only [getKey, hk2, if_false, ih]

theorem stampAnnotations_autoremove (s : SpecGenerator) (a : List (String × String)) :
    getKey InspectAnnotationAutoremove (stampAnnotations s a)
      = some (if s.Remove then InspectResponseTrue else InspectResponseFalse) := by
  have n1 : InspectAnnotationAutoremove ≠ InspectAnnotationPrivileged := by decide
  have n2 : InspectAnnotationAutoremove ≠ InspectAnnotationVolumesFrom := by decide
  unfold stampAnnotations
  cases s.Remove <;> cases s.Privileged <;> cases hv : decide (s.VolumesFrom.length > 0) <;>
    simp only [decide_eq_true_eq, decide_eq_false_iff_not] at hv <;>
    simp [hv, getKey_setKey_ne _ _ _ _ n1, getKey_setKey_ne _ _ _ _ n2, getKey_setKey_self]

theorem stampAnnotations_privileged (s : SpecGenerator) (a : List (String × String)) :
    getKey InspectAnnotationPrivileged (stampAnnotations s a)
      = some (if s.Privileged then InspectResponseTrue else InspectResponseFalse) := by
  unfold stampAnnotations
  cases s.Privileged <;> simp [getKey_setKey_self]

theorem stampAnnotations_volumesFrom (s : SpecGenerator) (a : List (String × String)) :
    getKey InspectAnnotationVolumesFrom (stampAnnotations s a)
      = (if s.VolumesFrom.length > 0 then some (String.intercalate "," s.VolumesFrom)
         else getKey InspectAnnotationVolumesFrom a) := by
  have n1 : InspectAnnotationVolumesFrom ≠ InspectAnnotationPrivileged := by decide
  have n2 : InspectAnnotationVolumesFrom ≠ InspectAnnotationAutoremove := by decide
  unfold stampAnnotations
  cases s.Remove <;> cases s.Privileged <;> cases hv : decide (s.VolumesFrom.length > 0) <;>
    simp only [decide_eq_true_eq, decide_eq_false_iff_not] at hv <;>
    simp [hv, getKey_setKey_ne _ _ _ _ n1, getKey_setKey_ne _ _ _ _ n2, getKey_setKey_self]

theorem andThen_result_ok (r : Run) (rest : Generator → Run) (spec : Generator)
    (h : (r.andThen rest).result = Except.ok spec) :
    ∃ g, r.result = Except.ok g ∧ (rest g).result = Except.ok spec := by
  unfold Run.andThen at h
  cases hres : r.result with
  | error err => simp [hres] at h
  | ok g =>
    simp only [hres] at h
    exact ⟨g, rfl, h⟩

theorem finalize_result_ok (c : Collaborators) (s : SpecGenerator) (g spec : Generator)
    (h : (finalize c s g).result = Except.ok spec) :
    ∃ mounts, InitFSMounts c.processOptions (SupercedeUserMounts s.Mounts g.Mounts)
          = Except.ok mounts
      ∧ spec.Mounts = mounts
      ∧ spec.Annotations = some (stampAnnotations s (g.Annotations.getD [])) := by
  unfold finalize at h
  simp only [] at h
  cases hi : InitFSMounts c.processOptions (SupercedeUserMounts s.Mounts g.Mounts) with
  | error err => simp [hi] at h
  | ok mounts =>
    simp only [hi] at h
    injection h with h
    subst h
    refine ⟨mounts, rfl, rfl, ?_⟩
    cases g.Annotations <;> rfl

theorem SpecGenToOCI_result_ok (c : Collaborators) (isRootless : Bool) (s : SpecGenerator)
    (spec : Generator) (h : (SpecGenToOCI c isRootless s).result = Except.ok spec) :
    ∃ (g : Generator) (mounts : List Mount),
      InitFSMounts c.processOptions (SupercedeUserMounts s.Mounts g.Mounts)
          = Except.ok mounts
      ∧ spec.Mounts = mounts
      ∧ spec.Annotations = some (stampAnnotations s (g.Annotations.getD [])) := by
  unfold SpecGenToOCI at h
  obtain ⟨g1, -, h⟩ := andThen_result_ok _ _ _ h
  obtain ⟨g2, -, h⟩ := andThen_result_ok _ _ _ h
  unfold afterDevices at h
  obtain ⟨g3, -, h⟩ := andThen_result_ok _ _ _ h
  obtain ⟨g4, -, h⟩ := andThen_result_ok _ _ _ h
  obtain ⟨g5, -, h⟩ := andThen_result_ok _ _ _ h
  obtain ⟨mounts, hm⟩ := finalize_result_ok c s g5 spec h
  exact ⟨g5, mounts, hm⟩

/-! ## Finalizer: the claims -/

/-- C15: for every successful translation the annotation map of the returned
specification exists (is not nil); its autoremove annotation is
`InspectResponseTrue` if the remove flag is set and `InspectResponseFalse`
otherwise; its privileged annotation is `InspectResponseTrue` if the
privileged flag is set and `InspectResponseFalse` otherwise; and the finalizer
writes the volumes-from annotation if and only if the volumes-from list is
non-empty: then its value is the elements of the list joined by "," in order,
otherwise the value at that key is the one the map held before the finalizer,
if any. -/
theorem SpecGenToOCI_annotations (c : Collaborators) (isRootless : Bool) (s : SpecGenerator)
    (spec : Generator) (h : (SpecGenToOCI c isRootless s).result = Except.ok spec) :
    ∃ annotations before, spec.Annotations = some annotations
      ∧ annotations = stampAnnotations s before
      ∧ getKey InspectAnnotationAutoremove annotations
        = some (if s.Remove then InspectResponseTrue else InspectResponseFalse)
      ∧ getKey InspectAnnotationPrivileged annotations
        = some (if s.Privileged then InspectResponseTrue else InspectResponseFalse)
      ∧ (s.VolumesFrom ≠ [] →
          getKey InspectAnnotationVolumesFrom annotations
            = some (String.intercalate "," s.VolumesFrom))
      ∧ (s.VolumesFrom = [] →
          getKey InspectAnnotationVolumesFrom annotations
            = getKey InspectAnnotationVolumesFrom before) := by
  obtain ⟨g, mounts, -, -, ha⟩ := SpecGenToOCI_result_ok c isRootless s spec h
  refine ⟨_, g.Annotations.getD [], ha, rfl, stampAnnotations_autoremove s _,
    stampAnnotations_privileged s _, ?_, ?_⟩
  · intro hne
    rw [stampAnnotations_volumesFrom]
    simp [List.length_pos.mpr hne]
  · intro he
    rw [stampAnnotations_volumesFrom]
    simp [he]

/-- Witness for C15: not rootless, remove flag set, volumes-from list `a`, `b`,
every call succeeding. -/
theorem SpecGenToOCI_annotations_witness :
    ∃ spec, (SpecGenToOCI plainCollaborators false
          { hostSpec with Remove := true, VolumesFrom := ["a", "b"] }).result = Except.ok spec
      ∧ spec.Annotations
        = some [("io.podman.annotations.autoremove", "TRUE"),
                ("io.podman.annotations.volumes-from", "a,b"),
                ("io.podman.annotations.privileged", "FALSE")]
      ∧ ∃ annotations before, spec.Annotations = some annotations
          ∧ annotations
            = stampAnnotations { hostSpec with Remove := true, VolumesFrom := ["a", "b"] } before
          ∧ getKey InspectAnnotationAutoremove annotations
            = some (if ({ hostSpec with Remove := true, VolumesFrom := ["a", "b"] } :
                  SpecGenerator).Remove then InspectResponseTrue else InspectResponseFalse)
          ∧ getKey InspectAnnotationPrivileged annotations
            = some (if ({ hostSpec with Remove := true, VolumesFrom := ["a", "b"] } :
                  SpecGenerator).Privileged then InspectResponseTrue else InspectResponseFalse)
          ∧ (({ hostSpec with Remove := true, VolumesFrom := ["a", "b"] } :
                SpecGenerator).VolumesFrom ≠ [] →
              getKey InspectAnnotationVolumesFrom annotations
                = some (String.intercalate ","
                    ({ hostSpec with Remove := true, VolumesFrom := ["a", "b"] } :
                      SpecGenerator).VolumesFrom))
          ∧ (({ hostSpec with Remove := true, VolumesFrom := ["a", "b"] } :
                SpecGenerator).VolumesFrom = [] →
              getKey InspectAnnotationVolumesFrom annotations
                = getKey InspectAnnotationVolumesFrom before) :=
  ⟨_, rfl, rfl,
    SpecGenToOCI_annotations plainCollaborators false
      { hostSpec with Remove := true, VolumesFrom := ["a", "b"] } _ rfl⟩

/-- C18: the stamped annotations win over the declared ones.  For every
successful translation, whatever value the declared annotations give to the
autoremove key, to the privileged key or to the volumes-from key, the returned
value at the autoremove key is the one of the remove flag, the returned value
at the privileged key is the one of the privileged flag, and, when the
volumes-from list is non-empty, the returned value at the volumes-from key is
the list joined by ",".  So two successful translations of specifications
with the same remove flag (privileged flag, non-empty volumes-from list)
return the same value at that key, however else they differ. -/
theorem SpecGenToOCI_annotations_win (c : Collaborators) (isRootless : Bool)
    (s : SpecGenerator) (spec : Generator)
    (h : (SpecGenToOCI c isRootless s).result = Except.ok spec) :
    (∀ v, (InspectAnnotationAutoremove, v) ∈ s.Annotations →
        getKey InspectAnnotationAutoremove (spec.Annotations.getD [])
          = some (if s.Remove then InspectResponseTrue else InspectResponseFalse))
      ∧ (∀ v, (InspectAnnotationPrivileged, v) ∈ s.Annotations →
        getKey InspectAnnotationPrivileged (spec.Annotations.getD [])
          = some (if s.Privileged then InspectResponseTrue else InspectResponseFalse))
      ∧ (∀ v, (InspectAnnotationVolumesFrom, v) ∈ s.Annotations → s.VolumesFrom ≠ [] →
        getKey InspectAnnotationVolumesFrom (spec.Annotations.getD [])
          = some (String.intercalate "," s.VolumesFrom))
      ∧ (∀ (c2 : Collaborators) (isRootless2 : Bool) (s2 : SpecGenerator) (spec2 : Generator),
          (SpecGenToOCI c2 isRootless2 s2).result = Except.ok spec2 →
          (s2.Remove = s.Remove →
            getKey InspectAnnotationAutoremove (spec2.Annotations.getD [])
              = getKey InspectAnnotationAutoremove (spec.Annotations.getD []))
          ∧ (s2.Privileged = s.Privileged →
            getKey InspectAnnotationPrivileged (spec2.Annotations.getD [])
              = getKey InspectAnnotationPrivileged (spec.Annotations.getD []))
          ∧ (s2.VolumesFrom = s.VolumesFrom → s.VolumesFrom ≠ [] →
            getKey InspectAnnotationVolumesFrom (spec2.Annotations.getD [])
              = getKey InspectAnnotationVolumesFrom (spec.Annotations.getD []))) := by
  obtain ⟨g, mounts, -, -, ha⟩ := SpecGenToOCI_result_ok c isRootless s spec h
  have hv : s.VolumesFrom ≠ [] →
      getKey InspectAnnotationVolumesFrom (stampAnnotations s (g.Annotations.getD []))
        = some (String.intercalate "," s.VolumesFrom) := by
    intro hne
    rw [stampAnnotations_volumesFrom]
    simp [List.length_pos.mpr hne]
  rw [ha]
  simp only [Option.getD_some]
  refine ⟨fun _ _ => stampAnnotations_autoremove s _,
    fun _ _ => stampAnnotations_privileged s _, fun _ _ hne => hv hne, ?_⟩
  intro c2 r2 s2 spec2 h2
  obtain ⟨g2, mounts2, -, -, ha2⟩ := SpecGenToOCI_result_ok c2 r2 s2 spec2 h2
  rw [ha2]
  simp only [Option.getD_some]
  refine ⟨?_, ?_, ?_⟩
  · intro he
    rw [stampAnnotations_autoremove, stampAnnotations_autoremove, he]
  · intro he
    rw [stampAnnotations_privileged, stampAnnotations_privileged, he]
  · intro he hne
    rw [hv hne, stampAnnotations_volumesFrom, he]
    simp [List.length_pos.mpr hne]

/-- Witness for C18: not rootless, remove flag set, the declared annotations
give the value `x` to the autoremove key, every call succeeding; the returned
value is `TRUE`. -/
theorem SpecGenToOCI_annotations_win_witness :
    ∃ spec, (SpecGenToOCI plainCollaborators false
          { hostSpec with
            Remove := true
            Annotations := [("io.podman.annotations.autoremove", "x")] }).result
        = Except.ok spec
      ∧ (InspectAnnotationAutoremove, "x")
          ∈ ({ hostSpec with
               Remove := true
               Annotations := [("io.podman.annotations.autoremove", "x")] } :
              SpecGenerator).Annotations
      ∧ getKey InspectAnnotationAutoremove (spec.Annotations.getD [])
        = some (if ({ hostSpec with
                      Remove := true
                      Annotations := [("io.podman.annotations.autoremove", "x")] } :
                    SpecGenerator).Remove then InspectResponseTrue
                else InspectResponseFalse) :=
  ⟨_, rfl, by decide,
    (SpecGenToOCI_annotations_win plainCollaborators false
      { hostSpec with
        Remove := true
        Annotations := [("io.podman.annotations.autoremove", "x")] } _ rfl).1 "x"
      (by decide)⟩

/-! ## Merge of the declared mounts: auxiliary facts -/

theorem mem_dests_putMount (mnt : Mount) (ms : List Mount) (d : String) :
    d ∈ (putMount mnt ms).map (fun m => m.Destination)
      ↔ (d = mnt.Destination ∨ d ∈ ms.map (fun m => m.Destination)) := by
  induction ms with
  | nil => simp [putMount]
  | cons m rest ih =>
    unfold putMount
    by_cases hm : m.Destination = mnt.Destination
    · simp only [hm, if_true, List.map_cons, List.mem_cons]
      tauto
    · simp only [hm, if_false, List.map_cons, List.mem_cons, ih]
      tauto

theorem mountsAt_eq_nil (d : String) (ms : List Mount)
    (h : d ∉ ms.map (fun m => m.Destination)) : mountsAt d ms = [] := by
  unfold mountsAt
  rw [List.filter_eq_nil_iff]
  intro m hm hd
  apply h
  simp only [beq_iff_eq] at hd
  exact List.mem_map.mpr ⟨m, hm, hd⟩

theorem mountsAt_cons (d : String) (m : Mount) (ms : List Mount) :
    mountsAt d (m :: ms) = (if m.Destination = d then m :: mountsAt d ms else mountsAt d ms) := by
  unfold mountsAt
  by_cases hm : m.Destination = d
  · simp [hm]
  · simp [hm]

theorem putMount_nodup (mnt : Mount) (ms : List Mount)
    (h : (ms.map (fun m => m.Destination)).Nodup) :
    ((putMount mnt ms).map (fun m => m.Destination)).Nodup := by
  induction ms with
  | nil => simp [putMount]
  | cons m rest ih =>
    simp only [List.map_cons, List.nodup_cons] at h
    unfold putMount
    by_cases hm : m.Destination = mnt.Destination
    · simp only [hm, if_true, List.map_cons, List.nodup_cons]
      rw [← hm]
      exact h
    · simp only [hm, if_false, List.map_cons, List.nodup_cons]
      refine ⟨?_, ih h.2⟩
      rw [mem_dests_putMount]
      rintro (hx | hx)
      · exact hm hx
      · exact h.1 hx

theorem mountsAt_putMount (mnt : Mount) (ms : List Mount) (d : String)
    (h : (ms.map (fun m => m.Destination)).Nodup) :
    mountsAt d (putMount mnt ms)
      = (if mnt.Destination = d then [mnt] else mountsAt d ms) := by
  induction ms with
  | nil =>
    simp only [putMount, mountsAt_cons]
    by_cases hd : mnt.Destination = d <;> simp [hd, mountsAt]
  | cons m rest ih =>
    simp only [List.map_cons, List.nodup_cons] at h
    unfold putMount
    by_cases hm : m.Destination = mnt.Destination
    · simp only [hm, if_true, mountsAt_cons]
      by_cases hd : mnt.Destination = d
      · have hnil : mountsAt d rest = [] := by
          apply mountsAt_eq_nil
          rw [← hd, ← hm]
          exact h.1
        simp [hd, hnil]
      · simp [hd]
    · simp only [hm, if_false, mountsAt_cons, ih h.2]
      by_cases hd : mnt.Destination = d
      · have hmd : ¬ m.Destination = d := fun hx => hm (hx.trans hd.symm)
        simp [hd, hmd]
      · simp [hd]

theorem foldl_putMount (l acc : List Mount)
    (h : (acc.map (fun m => m.Destination)).Nodup) :
    ((l.foldl (fun acc mnt => putMount mnt acc) acc).map (fun m => m.Destination)).Nodup
      ∧ ∀ d, mountsAt d (l.foldl (fun acc mnt => putMount mnt acc) acc)
          = (match (mountsAt d l).getLast? with
             | some u => [u]
             | none => mountsAt d acc) := by
  induction l generalizing acc with
  | nil =>
    refine ⟨h, ?_⟩
    intro d
    simp [mountsAt]
  | cons x xs ih =>
    have hn := putMount_nodup x acc h
    obtain ⟨h1, h2⟩ := ih (putMount x acc) hn
    refine ⟨h1, ?_⟩
    intro d
    simp only [List.foldl_cons]
    rw [h2 d, mountsAt_cons, mountsAt_putMount x acc d h]
    by_cases hd : x.Destination = d
    · simp only [hd, if_true]
      cases hl : mountsAt d xs with
      | nil => simp
      | cons y ys =>
        have e : (x :: y :: ys).getLast? = (y :: ys).getLast? := List.getLast?_cons_cons
        have hu : (y :: ys).getLast? = some ((y :: ys).getLast (List.cons_ne_nil y ys)) :=
          List.getLast?_eq_getLast _ _
        rw [e, hu]
    · simp only [hd, if_false]

theorem SupercedeUserMounts_spec (mounts configMount : List Mount) :
    ((SupercedeUserMounts mounts configMount).map (fun m => m.Destination)).Nodup
      ∧ ∀ d u, (mountsAt d mounts).getLast? = some u →
          mountsAt d (SupercedeUserMounts mounts configMount) = [u] := by
  unfold SupercedeUserMounts
  obtain ⟨h1, h2⟩ := foldl_putMount (configMount ++ mounts) [] (by simp)
  refine ⟨h1, ?_⟩
  intro d u hu
  rw [h2 d, mountsAt_append, List.getLast?_append, hu]
  rfl

theorem InitFSMounts_ok (processOptions : Mount → Except Error (List String))
    (ms res : List Mount) (h : InitFSMounts processOptions ms = Except.ok res) :
    res.map (fun m => m.Destination) = ms.map (fun m => m.Destination)
      ∧ ∀ d, List.Forall₂
          (fun m r => ∃ opts, processOptions m = Except.ok opts ∧ r = { m with Options := opts })
          (mountsAt d ms) (mountsAt d res) := by
  induction ms generalizing res with
  | nil =>
    simp only [InitFSMounts] at h
    injection h with h
    subst h
    exact ⟨rfl, fun d => List.Forall₂.nil⟩
  | cons m rest ih =>
    unfold InitFSMounts at h
    cases hp : processOptions m with
    | error err => simp [hp] at h
    | ok opts =>
      simp only [hp] at h
      cases hr : InitFSMounts processOptions rest with
      | error err => simp [hr] at h
      | ok rest2 =>
        simp only [hr] at h
        injection h with h
        subst h
        obtain ⟨h1, h2⟩ := ih rest2 hr
        refine ⟨by simp [h1], ?_⟩
        intro d
        rw [mountsAt_cons, mountsAt_cons]
        by_cases hd : m.Destination = d
        · rw [if_pos hd, if_pos hd]
          exact List.Forall₂.cons ⟨opts, hp, rfl⟩ (h2 d)
        · rw [if_neg hd, if_neg hd]
          exact h2 d

/-! ## Merge of the declared mounts: the claim -/

/-- C16: for every successful translation, with the merge of the declared
mounts and the normalisation of the mount options as the spec describes them,
no two entries of the returned mount list have the same destination, and for
every destination at which the specification declares a mount, also when the
declared mounts repeat it or the builder mounts something there as well, the
one returned entry at that destination is the declared entry (the last one
declared there), with its option list normalised, not a builder entry. -/
theorem SpecGenToOCI_mounts (c : Collaborators) (isRootless : Bool) (s : SpecGenerator)
    (spec : Generator) (h : (SpecGenToOCI c isRootless s).result = Except.ok spec) :
    (spec.Mounts.map (fun m => m.Destination)).Nodup
      ∧ (∀ m ∈ s.Mounts, ∃ u, (mountsAt m.Destination s.Mounts).getLast? = some u)
      ∧ ∀ d u, (mountsAt d s.Mounts).getLast? = some u →
          ∃ opts, c.processOptions u = Except.ok opts
            ∧ mountsAt d spec.Mounts = [{ u with Options := opts }] := by
  obtain ⟨g, mounts, hi, hm, -⟩ := SpecGenToOCI_result_ok c isRootless s spec h
  obtain ⟨hn, hu⟩ := SupercedeUserMounts_spec s.Mounts g.Mounts
  obtain ⟨hd, hf⟩ := InitFSMounts_ok c.processOptions _ _ hi
  rw [hm]
  refine ⟨by rw [hd]; exact hn, ?_, ?_⟩
  · intro m hmem
    have hin : m ∈ mountsAt m.Destination s.Mounts := by
      unfold mountsAt
      exact List.mem_filter.mpr ⟨hmem, by simp⟩
    have hne : mountsAt m.Destination s.Mounts ≠ [] := List.ne_nil_of_mem hin
    exact ⟨_, List.getLast?_eq_getLast _ hne⟩
  · intro d u hl
    have h2 := hf d
    rw [hu d u hl] at h2
    rw [List.forall₂_cons_left_iff] at h2
    obtain ⟨r, rest, ⟨opts, hp, hr⟩, hrest, he⟩ := h2
    rw [List.forall₂_nil_left_iff] at hrest
    subst hrest
    exact ⟨opts, hp, by rw [he, hr]⟩

/-- Witness for C16: not rootless, every call succeeding and the options left
as declared; the declared mounts name `/sys`, which the builder mounts too, and
twice `/data`. -/
theorem SpecGenToOCI_mounts_witness :
    ∃ spec, (SpecGenToOCI plainCollaborators false
          { hostSpec with
            Mounts :=
              [{ Destination := "/sys", Typ := "bind", Source := "/x", Options := ["ro"] },
               { Destination := "/data", Typ := "bind", Source := "/d", Options := [] },
               { Destination := "/data", Typ := "bind", Source := "/e", Options := [] }] }).result
        = Except.ok spec
      ∧ mountsAt "/data" spec.Mounts
        = [{ Destination := "/data", Typ := "bind", Source := "/e", Options := [] }]
      ∧ mountsAt "/sys" spec.Mounts
        = [{ Destination := "/sys", Typ := "bind", Source := "/x", Options := ["ro"] }]
      ∧ (spec.Mounts.map (fun m => m.Destination)).Nodup :=
  ⟨_, rfl, by decide, by decide,
    (SpecGenToOCI_mounts plainCollaborators false
      { hostSpec with
        Mounts :=
          [{ Destination := "/sys", Typ := "bind", Source := "/x", Options := ["ro"] },
           { Destination := "/data", Typ := "bind", Source := "/d", Options := [] },
           { Destination := "/data", Typ := "bind", Source := "/e", Options := [] }] }
      _ rfl).1⟩

end Specgen
